import Mathlib

/-!
Shallow embedding of the adaptive content-policy engine
(`fixed_content_policy.py`, `content_policy_module.py`) and the safe
web-access gateway (`fixed_web_access.py`) of the mcp_gpt_oss repository,
together with theorems settling the frozen claims about them.

Modelling conventions:
* wall-clock instants (`datetime.now()`, `time.time()`) are explicit
  parameters: `Nat` on the policy side, `Int` on the gateway side;
* Python float scores, thresholds and trust values — all of which are
  exact multiples of 0.01 in the source — are modelled as integer
  hundredths (`Nat`), which the additions, count-weight products,
  min/max clamps and order comparisons of the source preserve exactly;
  wall-clock seconds on the gateway side are modelled as `Int`
  (only ordering and differences of timestamps are ever used);
* the sqlite audit stores are modelled as in-memory append-only lists held
  in the component state;
* network I/O (HTTP fetches, the fallback search provider) is supplied by
  oracle parameters, since it is external to the program;
* case folding (`str.lower`) is modelled on ASCII letters only, and the
  MD5/SHA256 fingerprints (whose values no claim depends on) are modelled
  by an injective identity fingerprint.
-/

set_option maxHeartbeats 1000000

/-! ## Shared text primitives -/

/-- Whitespace characters recognised by `str.strip` / `str.split`
(ASCII fragment). -/
def isSpaceChar (c : Char) : Bool :=
  c = ' ' || c = '\t' || c = '\n' || c = '\r'

/-- Word characters of the `\w` / `\b` regex classes: ASCII alphanumerics,
underscore, and the Cyrillic block (the source patterns are bilingual). -/
def isWordChar (c : Char) : Bool :=
  c.isAlpha || c.isDigit || c = '_' || (0x400 ≤ c.toNat && c.toNat ≤ 0x4FF)

/-- `str.lower`, modelled on ASCII letters. -/
def lowerStr (cs : List Char) : List Char :=
  cs.map Char.toLower

/-- `not content or len(content.strip()) == 0`: the string is empty or
consists of whitespace only. -/
def isBlank (s : String) : Bool :=
  s.data.all isSpaceChar

/-- Scan worker for `countOccs`: `skip` counts characters still covered
by the previously counted occurrence (so occurrences never overlap). -/
def countOccsGo (needle : List Char) : Nat → List Char → Nat
  | _, [] => 0
  | Nat.succ k, _ :: rest => countOccsGo needle k rest
  | 0, c :: rest =>
    if needle ≠ [] ∧ needle.isPrefixOf (c :: rest) then
      1 + countOccsGo needle (needle.length - 1) rest
    else
      countOccsGo needle 0 rest

/-- `str.count(needle)`: number of non-overlapping occurrences of a
(nonempty) needle, scanning left to right. -/
def countOccs (needle : List Char) (hay : List Char) : Nat :=
  countOccsGo needle 0 hay

/-- Python's `needle in hay` substring test. -/
def containsSub (needle : List Char) : List Char → Bool
  | [] => needle.isEmpty
  | c :: rest => needle.isPrefixOf (c :: rest) || containsSub needle rest

/-- `text[:n]` character slicing on strings. -/
def strTake (s : String) (n : Nat) : String :=
  String.mk (s.data.take n)

/-- Accumulator worker for `pySplit`; `acc` holds the current word
reversed. -/
def pySplitGo (acc : List Char) : List Char → List (List Char)
  | [] => if acc = [] then [] else [acc.reverse]
  | c :: rest =>
    if isSpaceChar c then
      if acc = [] then pySplitGo [] rest else acc.reverse :: pySplitGo [] rest
    else
      pySplitGo (c :: acc) rest

/-- `str.split()` with no argument: maximal runs of non-whitespace. -/
def pySplit (cs : List Char) : List (List Char) :=
  pySplitGo [] cs

/-! ## Matcher for the source's regex pattern shapes

Every regex literal used by the detectors and the query filter has the
shape `\b G1 \s+ G2 ... [\b]` where each group `Gi` is an alternation of
phrases, and each phrase is a `\s+`-separated sequence of literal words
and `\w+` wildcards.  `RePat` captures exactly this shape and `reSearch`
implements `re.search` for it (greedy matching is exact here because the
word and whitespace character classes are disjoint and no alternative of
any group is a prefix of another). -/

/-- One token of a pattern phrase: a literal word or the `\w+` wildcard. -/
inductive PatTok where
  | lit (s : String)
  | anyWord
deriving DecidableEq

/-- A regex of the restricted shape used in the source: alternation groups
joined by `\s+`, with a leading `\b` and an optional trailing `\b`. -/
structure RePat where
  groups : List (List (List PatTok))
  endBoundary : Bool
deriving DecidableEq

/-- Consume an exact character sequence. -/
def dropExact : List Char → List Char → Option (List Char)
  | [], cs => some cs
  | _ :: _, [] => none
  | p :: ps, c :: cs => if p = c then dropExact ps cs else none

/-- Consume one or more whitespace characters (`\s+`, greedy). -/
def dropWs1 (cs : List Char) : Option (List Char) :=
  match cs with
  | [] => none
  | c :: rest => if isSpaceChar c then some (rest.dropWhile isSpaceChar) else none

/-- Consume one or more word characters (`\w+`, greedy). -/
def dropWord1 (cs : List Char) : Option (List Char) :=
  match cs with
  | [] => none
  | c :: rest => if isWordChar c then some (rest.dropWhile isWordChar) else none

/-- Consume a single pattern token. -/
def dropTok : PatTok → List Char → Option (List Char)
  | .lit s, cs => dropExact s.data cs
  | .anyWord, cs => dropWord1 cs

/-- Consume a phrase: tokens joined by `\s+`. -/
def dropPhrase : List PatTok → List Char → Option (List Char)
  | [], cs => some cs
  | [t], cs => dropTok t cs
  | t :: t2 :: ts, cs =>
    match dropTok t cs with
    | none => none
    | some r =>
      match dropWs1 r with
      | none => none
      | some r2 => dropPhrase (t2 :: ts) r2

/-- Consume an alternation group: first alternative whose phrase matches. -/
def dropAlts : List (List PatTok) → List Char → Option (List Char)
  | [], _ => none
  | a :: rest, cs =>
    match dropPhrase a cs with
    | some r => some r
    | none => dropAlts rest cs

/-- Consume the whole group sequence, groups joined by `\s+`. -/
def dropGroups : List (List (List PatTok)) → List Char → Option (List Char)
  | [], cs => some cs
  | [g], cs => dropAlts g cs
  | g :: g2 :: gs, cs =>
    match dropAlts g cs with
    | none => none
    | some r =>
      match dropWs1 r with
      | none => none
      | some r2 => dropGroups (g2 :: gs) r2

/-- Match the pattern at the current position (which is known to sit at a
`\b` boundary), checking the optional trailing `\b`. -/
def matchHere (p : RePat) (cs : List Char) : Bool :=
  match dropGroups p.groups cs with
  | none => false
  | some rest =>
    !p.endBoundary ||
      (match rest with
       | [] => true
       | c :: _ => !isWordChar c)

/-- Scan worker for `reSearch`: `atB` records whether the current position
follows a non-word character (or is the start of the text). -/
def reSearchGo (p : RePat) : Bool → List Char → Bool
  | _, [] => false
  | atB, c :: rest =>
    (atB && matchHere p (c :: rest)) || reSearchGo p (!isWordChar c) rest

/-- `re.search` for patterns of the restricted shape. -/
def reSearch (p : RePat) (cs : List Char) : Bool :=
  reSearchGo p true cs

/-- Lookup in an association list with a default (`dict.get(k, d)`). -/
def lookupD {α : Type} (l : List (String × α)) (k : String) (d : α) : α :=
  (l.lookup k).getD d

/-- Phrase of literal words (helper for transcribing the regex literals). -/
def phL (ws : List String) : List PatTok :=
  ws.map PatTok.lit

namespace FixedContentPolicy

/-! ## `fixed_content_policy.py` — `AdaptiveContentPolicy`

String-keyed levels and categories, as in the source's
compatibility-oriented variant. -/

/-- `level_hierarchy` of `verify_authorization`. -/
def level_hierarchy : List (String × Nat) :=
  [("safe", 0), ("educational", 1), ("research", 2), ("unrestricted", 3)]

/-- `level_hierarchy.get(level, 0)`. -/
def hget (level : String) : Nat :=
  lookupD level_hierarchy level 0

/-- The `"safe"` threshold row of `self.policies`. -/
def safe_policy : List (String × Nat) :=
  [("violence", 10), ("adult", 0), ("hate_speech", 0), ("illegal", 0),
   ("medical", 30), ("political", 20), ("controversial", 20),
   ("educational", 100), ("technical", 100), ("creative", 80)]

/-- The `"educational"` threshold row of `self.policies`. -/
def educational_policy : List (String × Nat) :=
  [("violence", 30), ("adult", 10), ("hate_speech", 10), ("illegal", 20),
   ("medical", 80), ("political", 70), ("controversial", 60),
   ("educational", 100), ("technical", 100), ("creative", 100)]

/-- The `"research"` threshold row of `self.policies`. -/
def research_policy : List (String × Nat) :=
  [("violence", 60), ("adult", 40), ("hate_speech", 30), ("illegal", 50),
   ("medical", 100), ("political", 100), ("controversial", 90),
   ("educational", 100), ("technical", 100), ("creative", 100)]

/-- The `"unrestricted"` threshold row of `self.policies`. -/
def unrestricted_policy : List (String × Nat) :=
  [("violence", 80), ("adult", 70), ("hate_speech", 50), ("illegal", 30),
   ("medical", 100), ("political", 100), ("controversial", 100),
   ("educational", 100), ("technical", 100), ("creative", 100)]

/-- `self.policies`: level → category → threshold. -/
def policies : List (String × List (String × Nat)) :=
  [("safe", safe_policy), ("educational", educational_policy),
   ("research", research_policy), ("unrestricted", unrestricted_policy)]

/-- Threshold of a category at a level, with the code's lookup defaults
(`self.policies.get(level, policies["safe"])` and
`current_policy.get(category, 0.0)`). -/
def thr (level category : String) : Nat :=
  lookupD (lookupD policies level safe_policy) category 0

/-! ### Category detectors -/

def violence_keywords : List String :=
  ["убить", "убийство", "смерть", "кровь", "драка", "война", "оружие",
   "пытки", "боль", "страдание", "жестокость", "насилие", "избиение",
   "kill", "murder", "death", "blood", "fight", "war", "weapon",
   "torture", "pain", "suffering", "cruelty", "violence", "beating"]

def violence_patterns : List RePat :=
  [⟨[[phL ["как", "убить"], phL ["how", "to", "kill"]]], true⟩,
   ⟨[[phL ["сделать", "бомбу"], phL ["make", "bomb"]]], true⟩,
   ⟨[[phL ["причинить", "боль"], phL ["cause", "pain"]]], true⟩]

def adult_keywords : List String :=
  ["секс", "эротика", "порно", "голый", "обнаженный", "интим",
   "sex", "erotic", "porn", "nude", "naked", "intimate", "adult"]

def hate_keywords : List String :=
  ["расизм", "фашизм", "нацизм", "ненависть", "дискриминация",
   "racism", "fascism", "nazism", "hatred", "discrimination", "bigotry"]

def hate_patterns : List RePat :=
  [⟨[[[PatTok.lit "все", PatTok.anyWord, PatTok.lit "должны", PatTok.lit "умереть"],
      [PatTok.lit "all", PatTok.anyWord, PatTok.lit "should", PatTok.lit "die"]]], true⟩,
   ⟨[[phL ["я", "ненавижу", "всех"], phL ["i", "hate", "all"]]], true⟩]

def illegal_keywords : List String :=
  ["наркотики", "взлом", "кража", "мошенничество", "подделка",
   "drugs", "hack", "theft", "fraud", "counterfeit", "piracy"]

def illegal_patterns : List RePat :=
  [⟨[[phL ["как", "взломать"], phL ["how", "to", "hack"]]], true⟩,
   ⟨[[phL ["купить", "наркотики"], phL ["buy", "drugs"]]], true⟩,
   ⟨[[phL ["сделать", "поддельные"], phL ["make", "fake"]],
     [phL ["документы"], phL ["documents"]]], true⟩]

def medical_keywords : List String :=
  ["болезнь", "лечение", "симптом", "диагноз", "медицина", "врач",
   "disease", "treatment", "symptom", "diagnosis", "medicine", "doctor",
   "health", "medical", "therapy", "medication", "surgery"]

def political_keywords : List String :=
  ["политика", "правительство", "выборы", "президент", "партия",
   "politics", "government", "election", "president", "party",
   "democracy", "republican", "democrat", "conservative", "liberal"]

def controversial_keywords : List String :=
  ["контроверсия", "спорный", "скандал", "протест", "конфликт",
   "controversy", "controversial", "scandal", "protest", "conflict",
   "debate", "dispute", "argument"]

def educational_keywords : List String :=
  ["учеба", "образование", "урок", "лекция", "курс", "обучение",
   "study", "education", "lesson", "lecture", "course", "learning",
   "tutorial", "guide", "explain", "teach", "academic"]

def technical_keywords : List String :=
  ["программирование", "код", "алгоритм", "база данных", "сеть",
   "programming", "code", "algorithm", "database", "network",
   "software", "hardware", "technical", "engineering", "computer"]

def creative_keywords : List String :=
  ["искусство", "творчество", "поэзия", "музыка", "литература",
   "art", "creative", "poetry", "music", "literature",
   "story", "novel", "painting", "drawing", "design"]

/-- `_calculate_keyword_score`: case-fold the content, add
`occurrences * keyword_weight` per keyword and `pattern_weight` per
matching pattern, capped at `1.0` (= 100 hundredths). -/
def calculate_keyword_score (content : String) (keywords : List String)
    (patterns : List RePat) (keyword_weight pattern_weight : Nat) : Nat :=
  let content_lower := lowerStr content.data
  let s1 := keywords.foldl
    (fun acc k => acc + countOccs k.data content_lower * keyword_weight) 0
  let s2 := patterns.foldl
    (fun acc p => acc + if reSearch p content_lower then pattern_weight else 0) s1
  Nat.min s2 100

def detect_violence (content : String) : Nat :=
  calculate_keyword_score content violence_keywords violence_patterns 10 50

def detect_adult_content (content : String) : Nat :=
  calculate_keyword_score content adult_keywords [] 15 0

def detect_hate_speech (content : String) : Nat :=
  calculate_keyword_score content hate_keywords hate_patterns 20 70

def detect_illegal_content (content : String) : Nat :=
  calculate_keyword_score content illegal_keywords illegal_patterns 10 60

def detect_medical_content (content : String) : Nat :=
  calculate_keyword_score content medical_keywords [] 5 0

def detect_political_content (content : String) : Nat :=
  calculate_keyword_score content political_keywords [] 5 0

def detect_controversial_content (content : String) : Nat :=
  calculate_keyword_score content controversial_keywords [] 5 0

def detect_educational_content (content : String) : Nat :=
  calculate_keyword_score content educational_keywords [] 10 0

def detect_technical_content (content : String) : Nat :=
  calculate_keyword_score content technical_keywords [] 10 0

def detect_creative_content (content : String) : Nat :=
  calculate_keyword_score content creative_keywords [] 10 0

/-- The `detectors` dict of `evaluate_content`, in insertion order. -/
def detectors : List (String × (String → Nat)) :=
  [("violence", detect_violence),
   ("adult", detect_adult_content),
   ("hate_speech", detect_hate_speech),
   ("illegal", detect_illegal_content),
   ("medical", detect_medical_content),
   ("political", detect_political_content),
   ("controversial", detect_controversial_content),
   ("educational", detect_educational_content),
   ("technical", detect_technical_content),
   ("creative", detect_creative_content)]

/-- Per-category scores: `min(1.0, max(0.0, detector(content)))` for each
detector (the per-detector exception handler, which coerces a crashed
detector to `0.0`, is unreachable in the pure model). -/
def category_scores (content : String) : List (String × Nat) :=
  detectors.map (fun d => (d.1, Nat.min 100 (Nat.max 0 (d.2 content))))

/-! ### Engine state and operations -/

/-- `md5`/`sha256` fingerprints are never inspected by any claim; they are
modelled by the identity fingerprint (injective, like an ideal hash). -/
def md5_model (s : String) : String := s

/-- One `self.session_tokens` entry. -/
structure SessionInfo where
  user_id : String
  level : String
  expiry : Nat
deriving DecidableEq

/-- One `self.temporary_overrides` entry. -/
structure OverrideInfo where
  expiry : Nat
  reason : String
  created_by : String
deriving DecidableEq

/-- One row of the `content_evaluations` audit table. -/
structure EvalRecord where
  content_hash : String
  policy_level : String
  category_scores : List (String × Nat)
  final_decision : Bool
  block_reason : Option String
  user_context : Option String
  override_applied : Bool
deriving DecidableEq

/-- The dict returned by `evaluate_content`. -/
structure EvalResult where
  allowed : Bool
  policy_level : String
  category_scores : List (String × Nat)
  violations : List String
  override_applied : Bool
  content_hash : String
  evaluation_time : Nat
  block_reason : Option String
deriving DecidableEq

/-- Mutable state of `AdaptiveContentPolicy` (audit store included). -/
structure PolicyState where
  current_level : String
  session_tokens : List (String × SessionInfo)
  temporary_overrides : List (String × OverrideInfo)
  content_evaluations : List EvalRecord
deriving DecidableEq

/-- `verify_authorization(token, required_level)`: `false` on an empty or
unknown token; an expired token (`now > expiry`) is deleted and refused;
otherwise compare hierarchy ranks with default rank `0`. -/
def verify_authorization (st : PolicyState) (now : Nat)
    (token required_level : String) : Bool × PolicyState :=
  if token = "" then (false, st)
  else
    match st.session_tokens.lookup token with
    | none => (false, st)
    | some s =>
      if s.expiry < now then
        (false, { st with
          session_tokens := st.session_tokens.filter (fun p => p.1 ≠ token) })
      else
        (hget required_level ≤ hget s.level, st)

/-- Loop body of `check_temporary_overrides`: returns `none` when an
unexpired pattern matches (the early `return True`), otherwise the list of
expired patterns collected along the way.  `re.search(pattern, content,
re.IGNORECASE)` is modelled for literal (metacharacter-free) patterns,
where it is case-insensitive substring containment. -/
def scanOverrides (now : Nat) (content : String) :
    List (String × OverrideInfo) → Option (List String)
  | [] => some []
  | (pat, info) :: rest =>
    if info.expiry < now then
      (scanOverrides now content rest).map (fun l => pat :: l)
    else if containsSub (lowerStr pat.data) (lowerStr content.data) then
      none
    else
      scanOverrides now content rest

/-- `check_temporary_overrides(content)`: `true` as soon as an unexpired
pattern matches (expired patterns seen so far are then not yet purged,
matching the early return in the source); otherwise purge the expired
patterns and return `false`. -/
def check_temporary_overrides (st : PolicyState) (now : Nat)
    (content : String) : Bool × PolicyState :=
  match scanOverrides now content st.temporary_overrides with
  | none => (true, st)
  | some expired =>
    (false, { st with
      temporary_overrides :=
        st.temporary_overrides.filter (fun p => p.1 ∉ expired) })

/-- Two-decimal rendering of a (hundredths-scaled) score for the
`{score:.2f}` violation strings; exact, since scores are hundredths. -/
def fmt2 (n : Nat) : String :=
  let frac := n % 100
  let fracStr := if frac < 10 then "0" ++ toString frac else toString frac
  toString (n / 100) ++ "." ++ fracStr

/-- The violation string `"{category}: {score:.2f} > {threshold:.2f}"`. -/
def violationMsg (category : String) (score threshold : Nat) : String :=
  category ++ ": " ++ fmt2 score ++ " > " ++ fmt2 threshold

/-- One step of the violation-collection loop of `evaluate_content`:
`if score > threshold and not override_applied`, append the violation
string and clear the allowed flag. -/
def violStep (current_policy : List (String × Nat)) (override_applied : Bool)
    (acc : List String × Bool) (p : String × Nat) : List String × Bool :=
  if lookupD current_policy p.1 0 < p.2 ∧ override_applied = false then
    (acc.1 ++ [violationMsg p.1 p.2 (lookupD current_policy p.1 0)], false)
  else
    acc

/-- `log_content_evaluation`: append one row to `content_evaluations`. -/
def recordOf (content_hash : String) (r : EvalResult)
    (user_context : Option String) : EvalRecord :=
  { content_hash := content_hash
    policy_level := r.policy_level
    category_scores := r.category_scores
    final_decision := r.allowed
    block_reason := r.block_reason
    user_context := user_context
    override_applied := r.override_applied }

/-- `evaluate_content(content, user_context)`: early not-allowed result on
blank content (without logging); otherwise score all categories, check
temporary overrides once, collect strict-excess violations unless the
override applied, and append exactly one audit record. -/
def evaluate_content (st : PolicyState) (now : Nat) (content : String)
    (user_context : Option String) : EvalResult × PolicyState :=
  if isBlank content then
    ({ allowed := false
       policy_level := st.current_level
       category_scores := []
       violations := ["Empty content"]
       override_applied := false
       content_hash := ""
       evaluation_time := now
       block_reason := some "Empty or invalid content" }, st)
  else
    let content_hash := md5_model content
    let scores := category_scores content
    let current_policy := lookupD policies st.current_level safe_policy
    let (override_applied, st1) := check_temporary_overrides st now content
    let va := scores.foldl (violStep current_policy override_applied) ([], true)
    let result : EvalResult :=
      { allowed := va.2
        policy_level := st.current_level
        category_scores := scores
        violations := va.1
        override_applied := override_applied
        content_hash := content_hash
        evaluation_time := now
        block_reason :=
          if va.2 then none else some (String.intercalate "; " va.1) }
    (result,
     { st1 with
       content_evaluations :=
         st1.content_evaluations ++ [recordOf content_hash result user_context] })

end FixedContentPolicy

namespace ContentPolicyModule

/-! ## `content_policy_module.py` — `AdaptiveContentPolicy`

Enum-keyed variant, embedded for the config export/import round trip. -/

/-- The `ContentLevel` enum. -/
inductive ContentLevel where
  | safe
  | educational
  | research
  | unrestricted
deriving DecidableEq

/-- `ContentLevel.value`. -/
def ContentLevel.value : ContentLevel → String
  | .safe => "safe"
  | .educational => "educational"
  | .research => "research"
  | .unrestricted => "unrestricted"

/-- The `ContentLevel(s)` enum constructor: `none` models the
`ValueError` raised on an unknown value string. -/
def ContentLevel.fromValue : String → Option ContentLevel
  | "safe" => some .safe
  | "educational" => some .educational
  | "research" => some .research
  | "unrestricted" => some .unrestricted
  | _ => none

/-- The four levels, in declaration (dict-insertion) order. -/
def allLevels : List ContentLevel :=
  [.safe, .educational, .research, .unrestricted]

/-- The `ContentCategory` enum. -/
inductive ContentCategory where
  | violence
  | adult
  | hate_speech
  | illegal
  | medical
  | political
  | controversial
  | educational
  | technical
  | creative
deriving DecidableEq

/-- `ContentCategory.value`. -/
def ContentCategory.value : ContentCategory → String
  | .violence => "violence"
  | .adult => "adult"
  | .hate_speech => "hate_speech"
  | .illegal => "illegal"
  | .medical => "medical"
  | .political => "political"
  | .controversial => "controversial"
  | .educational => "educational"
  | .technical => "technical"
  | .creative => "creative"

/-- The `ContentCategory(s)` enum constructor (`none` = `ValueError`). -/
def ContentCategory.fromValue : String → Option ContentCategory
  | "violence" => some .violence
  | "adult" => some .adult
  | "hate_speech" => some .hate_speech
  | "illegal" => some .illegal
  | "medical" => some .medical
  | "political" => some .political
  | "controversial" => some .controversial
  | "educational" => some .educational
  | "technical" => some .technical
  | "creative" => some .creative
  | _ => none

/-- The ten categories, in declaration (dict-insertion) order. -/
def allCategories : List ContentCategory :=
  [.violence, .adult, .hate_speech, .illegal, .medical, .political,
   .controversial, .educational, .technical, .creative]

/-- The `level_hierarchy` dict of `verify_authorization` (total over the
enum, no default needed). -/
def level_hierarchy : ContentLevel → Nat
  | .safe => 0
  | .educational => 1
  | .research => 2
  | .unrestricted => 3

/-- One `self.session_tokens` entry. -/
structure Session where
  user_id : String
  level : ContentLevel
  expiry : Nat

/-- One `self.temporary_overrides` entry. -/
structure TempOverride where
  expiry : Nat
  reason : String
  created_by : String

/-- One row of the `policy_changes` audit table (fields used here). -/
structure PolicyChange where
  old_level : ContentLevel
  new_level : ContentLevel
  token : Option String
  reason : Option String

/-- Mutable state of this `AdaptiveContentPolicy` variant; the threshold
table is kept as a total function over the two enums, exactly as the dict
of dicts is total by construction. -/
structure CPMState where
  current_level : ContentLevel
  session_tokens : List (String × Session)
  policies : ContentLevel → ContentCategory → Nat
  temporary_overrides : List (String × TempOverride)
  policy_changes : List PolicyChange

/-- `verify_authorization` (enum variant): same logic as the string
variant, with direct hierarchy indexing. -/
def verify_authorization (st : CPMState) (now : Nat) (token : String)
    (required_level : ContentLevel) : Bool × CPMState :=
  if token = "" then (false, st)
  else
    match st.session_tokens.lookup token with
    | none => (false, st)
    | some s =>
      if s.expiry < now then
        (false, { st with
          session_tokens := st.session_tokens.filter (fun p => p.1 ≠ token) })
      else
        (level_hierarchy required_level ≤ level_hierarchy s.level, st)

/-- `set_policy_level`: elevated targets require authorization; the level
switch is recorded in the `policy_changes` audit log. -/
def set_policy_level (st : CPMState) (now : Nat) (level : ContentLevel)
    (auth_token : Option String) (reason : Option String) : Bool × CPMState :=
  let old_level := st.current_level
  if level = .research ∨ level = .unrestricted then
    let (ok, st1) := verify_authorization st now (auth_token.getD "") level
    if !ok then (false, st1)
    else
      (true, { st1 with
        current_level := level
        policy_changes :=
          st1.policy_changes ++ [⟨old_level, level, auth_token, reason⟩] })
  else
    (true, { st with
      current_level := level
      policy_changes :=
        st.policy_changes ++ [⟨old_level, level, auth_token, reason⟩] })

/-- The dict produced by `export_policy_config` / consumed by
`import_policy_config`; `Option` fields model the `in config` key tests. -/
structure PolicyConfig where
  current_level : Option String
  policies : Option (List (String × List (String × Nat)))
  active_overrides : List (String × Nat × String)
  export_time : Nat

/-- `export_policy_config()`: serialize active level, full threshold table
(levels and categories in dict-insertion order) and active overrides. -/
def export_policy_config (st : CPMState) (now : Nat) : PolicyConfig :=
  { current_level := some st.current_level.value
    policies := some (allLevels.map (fun l =>
      (l.value, allCategories.map (fun c => (c.value, st.policies l c)))))
    active_overrides :=
      st.temporary_overrides.map (fun p => (p.1, p.2.expiry, p.2.reason))
    export_time := now }

/-- Point update of the threshold table:
`self.policies[level][category] = threshold`. -/
def updateTbl (f : ContentLevel → ContentCategory → Nat) (l : ContentLevel)
    (c : ContentCategory) (v : Nat) : ContentLevel → ContentCategory → Nat :=
  fun l' c' => if l' = l ∧ c' = c then v else f l' c'

/-- Inner import loop over one level's category entries; a `false` flag
models the `ValueError` escaping to the `except` handler, with the
updates made so far kept (the dict is mutated in place). -/
def applyCatEntries (l : ContentLevel) :
    List (String × Nat) → (ContentLevel → ContentCategory → Nat) →
    (ContentLevel → ContentCategory → Nat) × Bool
  | [], f => (f, true)
  | (cs, v) :: rest, f =>
    match ContentCategory.fromValue cs with
    | none => (f, false)
    | some c => applyCatEntries l rest (updateTbl f l c v)

/-- Outer import loop over the serialized per-level tables. -/
def applyPolicyEntries :
    List (String × List (String × Nat)) → (ContentLevel → ContentCategory → Nat) →
    (ContentLevel → ContentCategory → Nat) × Bool
  | [], f => (f, true)
  | (ls, cats) :: rest, f =>
    match ContentLevel.fromValue ls with
    | none => (f, false)
    | some l =>
      match applyCatEntries l cats f with
      | (f1, true) => applyPolicyEntries rest f1
      | (f1, false) => (f1, false)

/-- Threshold-table part of `import_policy_config`: applied only when the
`"policies"` key is present and the token verifies at Unrestricted. -/
def importPolicies (st : CPMState) (now : Nat) (config : PolicyConfig)
    (auth_token : String) : Bool × CPMState :=
  match config.policies with
  | none => (true, st)
  | some ps =>
    let (ok, st1) := verify_authorization st now auth_token .unrestricted
    if ok then
      match applyPolicyEntries ps st1.policies with
      | (tbl, true) => (true, { st1 with policies := tbl })
      | (tbl, false) => (false, { st1 with policies := tbl })
    else (true, st1)

/-- `import_policy_config(config, auth_token)`: requires Research-level
authorization; restores the active level via `set_policy_level` (its
return value is ignored, as in the source) and, under Unrestricted
authorization, rewrites the threshold table entry by entry. -/
def import_policy_config (st : CPMState) (now : Nat) (config : PolicyConfig)
    (auth_token : String) : Bool × CPMState :=
  let (ok, st0) := verify_authorization st now auth_token .research
  if !ok then (false, st0)
  else
    match config.current_level with
    | none => importPolicies st0 now config auth_token
    | some s =>
      match ContentLevel.fromValue s with
      | none => (false, st0)
      | some lvl =>
        let (_, st1) :=
          set_policy_level st0 now lvl (some auth_token) (some "Config import")
        importPolicies st1 now config auth_token

end ContentPolicyModule

namespace FixedWebAccess

/-! ## `fixed_web_access.py` — `SafeWebAccess` -/

/-- Metadata of one trusted-domain entry. -/
structure DomainInfo where
  dtype : String
  trust : Nat
  rate_limit : Nat
deriving DecidableEq

/-- `self.trusted_domains`, in dict-insertion order. -/
def trusted_domains : List (String × DomainInfo) :=
  [("wikipedia.org", ⟨"encyclopedia", 90, 10⟩),
   ("en.wikipedia.org", ⟨"encyclopedia", 90, 10⟩),
   ("github.com", ⟨"code_repository", 80, 15⟩),
   ("stackoverflow.com", ⟨"technical_qa", 80, 10⟩),
   ("arxiv.org", ⟨"scientific", 90, 5⟩),
   ("news.ycombinator.com", ⟨"tech_news", 70, 8⟩),
   ("medium.com", ⟨"articles", 70, 10⟩)]

/-- `self.blocked_domains` (a set in the source; its membership test is
order-independent, so a list is a faithful model). -/
def blocked_domains : List String :=
  ["4chan.org", "8kun.top", "gab.com", "parler.com"]

/-- `self.safety_filters`, in dict-insertion order. -/
def safety_filters : List (String × List String) :=
  [("malware_keywords",
    ["download crack", "free hack", "keygen", "serial number",
     "torrent download", "pirated software", "warez"]),
   ("adult_keywords",
    ["explicit", "nsfw", "adult content", "pornography"]),
   ("illegal_keywords",
    ["how to make bomb", "illegal drugs", "hire hitman",
     "fake documents", "credit card fraud"]),
   ("hate_keywords",
    ["hate speech", "nazi", "terrorist", "extremist content"])]

/-- The `suspicious_patterns` of `is_safe_query`, transcribed into the
restricted regex shape. -/
def suspicious_patterns : List RePat :=
  [⟨[[[PatTok.lit "hack"], [PatTok.lit "exploit"], [PatTok.lit "vulnerability"]],
     [[PatTok.anyWord]]], false⟩,
   ⟨[[[PatTok.lit "download"], [PatTok.lit "crack"], [PatTok.lit "keygen"],
      [PatTok.lit "serial"]]], true⟩,
   ⟨[[[PatTok.lit "illegal"], [PatTok.lit "unlawful"], [PatTok.lit "criminal"]],
     [[PatTok.anyWord]]], false⟩,
   ⟨[[[PatTok.lit "bomb"], [PatTok.lit "weapon"], [PatTok.lit "drug"]],
     [[PatTok.lit "recipe"], [PatTok.lit "tutorial"], [PatTok.lit "guide"]]],
    false⟩]

/-- One row of the `web_requests` audit table. -/
structure WebReqRecord where
  query : String
  url : String
  success : Bool
  content_length : Nat
  response_time : Int
  trust_score : Nat
  filtered_reason : Option String
  user_context : Option String
deriving DecidableEq

/-- One row of the `blocked_attempts` audit table. -/
structure BlockedRecord where
  query : String
  url : String
  block_reason : String
  severity : String
deriving DecidableEq

/-- One search result produced by the (oracle) search provider. -/
structure RawResult where
  title : String
  url : String
  snippet : String
deriving DecidableEq

/-- One fully processed search result. -/
structure ProcessedResult where
  title : String
  url : String
  snippet : String
  content : String
  trust_score : Nat
  domain_type : String
  fetch_time : Int
  content_length : Nat
deriving DecidableEq

/-- The success payload cached and returned by `search_web_safely`. -/
structure SearchData where
  query : String
  results : List ProcessedResult
  total_found : Nat
  search_time : Int
deriving DecidableEq

/-- One `self.cache` entry. -/
structure CacheEntry where
  data : SearchData
  timestamp : Int
deriving DecidableEq

/-- Result of `search_web_safely`. -/
inductive SearchOutcome where
  | ok (d : SearchData)
  | fail (error : String) (reason : String)
deriving DecidableEq

/-- Result dict of `fetch_safe_content`. -/
inductive FetchResult where
  | success (content : String) (fetch_time : Int) (content_length : Nat) (url : String)
  | failure (error : String)
deriving DecidableEq

/-- Mutable state of `SafeWebAccess` (audit store included). -/
structure WebState where
  request_history : List (String × List Int)
  cache : List (String × CacheEntry)
  web_requests : List WebReqRecord
  blocked_attempts : List BlockedRecord
deriving DecidableEq

/-- Update or append a key in an association list, preserving
dict-insertion order. -/
def updateAssoc {α : Type} : List (String × α) → String → α → List (String × α)
  | [], k, v => [(k, v)]
  | (k', v') :: rest, k, v =>
    if k' = k then (k, v) :: rest else (k', v') :: updateAssoc rest k v

/-- `self.request_history.get(key, [])`. -/
def historyOf (st : WebState) (key : String) : List Int :=
  (st.request_history.lookup key).getD []

/-- `cleanup_request_history`: drop entries older than the larger window
(3600 s) from every key. -/
def cleanup_request_history (st : WebState) (now : Int) : WebState :=
  { st with
    request_history :=
      st.request_history.map (fun p =>
        (p.1, p.2.filter (fun t => now - t < 3600))) }

/-- `is_rate_limited(domain)`: 50 global requests per 3600 s, and when a
domain is given, 10 requests per 600 s for that domain. -/
def is_rate_limited (st : WebState) (now : Int) (domain : Option String) : Bool :=
  let global_requests := (historyOf st "global").filter (fun t => now - t < 3600)
  if 50 ≤ global_requests.length then true
  else
    match domain with
    | none => false
    | some d =>
      let domain_requests := (historyOf st d).filter (fun t => now - t < 600)
      10 ≤ domain_requests.length

/-- `record_request(domain)`: always append a timestamp to the global
history, additionally to the domain history when a domain is given, then
prune old entries. -/
def record_request (st : WebState) (now : Int) (domain : Option String) : WebState :=
  let st1 := { st with
    request_history :=
      updateAssoc st.request_history "global" (historyOf st "global" ++ [now]) }
  let st2 :=
    match domain with
    | none => st1
    | some d =>
      { st1 with
        request_history :=
          updateAssoc st1.request_history d (historyOf st1 d ++ [now]) }
  cleanup_request_history st2 now

/-- `urlparse(url).netloc` for `scheme://host/...`-shaped URLs: the text
between the first `"://"` and the next `/`, `?` or `#` (empty when there
is no `"://"`, as for scheme-less or opaque URLs). -/
def urlNetloc (url : String) : String :=
  let rec go : List Char → Option (List Char) :=
    fun cs =>
      match cs with
      | [] => none
      | c :: rest =>
        if ("://".data).isPrefixOf (c :: rest) then some (rest.drop 2)
        else go rest
  match go url.data with
  | none => ""
  | some post =>
    String.mk (post.takeWhile (fun c => !(c = '/' || c = '?' || c = '#')))

/-- `urlparse` scheme part: the text before the first `"://"`. -/
def urlScheme (url : String) : String :=
  let rec go : List Char → List Char → Option (List Char) :=
    fun acc cs =>
      match cs with
      | [] => none
      | c :: rest =>
        if ("://".data).isPrefixOf (c :: rest) then some acc.reverse
        else go (c :: acc) rest
  match go [] url.data with
  | none => ""
  | some pre => String.mk pre

/-- Strip a leading `"www."`. -/
def stripWww (domain : String) : String :=
  if ("www.".data).isPrefixOf domain.data then
    String.mk (domain.data.drop 4)
  else domain

/-- Lower-cased, `www.`-stripped host of a URL, as computed by both
`is_trusted_domain` and `fetch_safe_content`. -/
def domainOf (url : String) : String :=
  stripWww (String.mk (lowerStr (urlNetloc url).data))

/-- `is_trusted_domain(url)`: blocked-substring check first (always
wins), then the trusted table by substring containment in insertion
order, else the 0.2 default. -/
def is_trusted_domain (url : String) : Bool × Nat × String :=
  let domain := domainOf url
  if blocked_domains.any (fun b => containsSub b.data domain.data) then
    (false, 0, "Domain " ++ domain ++ " is blocked")
  else
    match trusted_domains.find? (fun td => containsSub td.1.data domain.data) with
    | some td => (true, td.2.trust, "Trusted domain: " ++ td.2.dtype)
    | none => (false, 20, "Domain " ++ domain ++ " is not in trusted list")

/-- `is_safe_query(query)`: empty check, then the first keyword category
with a substring hit, then the suspicious patterns. -/
def is_safe_query (query : String) : Bool × String :=
  if isBlank query then (false, "Empty query")
  else
    let query_lower := lowerStr query.data
    match safety_filters.findSome? (fun p =>
        if p.2.any (fun k => containsSub k.data query_lower) then some p.1
        else none) with
    | some category =>
      (false, "Query blocked: contains " ++ category ++ " content")
    | none =>
      if suspicious_patterns.any (fun p => reSearch p query_lower) then
        (false, "Query blocked: matches suspicious pattern")
      else
        (true, "Query is safe")

/-- `apply_content_filters(content)`: empty check; then reject the first
category with more than two distinct keyword hits; then the
50-character minimum; then the 30 %-unique-words spam heuristic
(only for more than 30 words). -/
def apply_content_filters (content : String) : Bool × String :=
  if isBlank content then (false, "Empty content")
  else
    let content_lower := lowerStr content.data
    match safety_filters.findSome? (fun p =>
        if 2 < p.2.countP (fun k => containsSub k.data content_lower) then
          some p.1
        else none) with
    | some category =>
      (false, "Content blocked: high " ++ category ++ " content density")
    | none =>
      if content.length < 50 then (false, "Content too short")
      else
        let words := pySplit content_lower
        if 30 < words.length ∧ 10 * words.eraseDups.length < 3 * words.length then
          (false, "Content appears to be spam or repetitive")
        else
          (true, "Content is safe")

/-- `log_web_request`: append one row to `web_requests`. -/
def log_web_request (st : WebState) (query url : String) (success : Bool)
    (content_length : Nat) (response_time : Int) (trust_score : Nat)
    (filtered_reason : Option String) (user_context : Option String) : WebState :=
  { st with
    web_requests := st.web_requests ++
      [⟨query, url, success, content_length, response_time, trust_score,
        filtered_reason, user_context⟩] }

/-- `log_blocked_attempt`: append one row to `blocked_attempts`. -/
def log_blocked_attempt (st : WebState) (query url reason severity : String) :
    WebState :=
  { st with
    blocked_attempts := st.blocked_attempts ++ [⟨query, url, reason, severity⟩] }

/-- `fetch_safe_content(url)`, with the network interaction (HEAD
preflight, streamed GET, HTML-to-text extraction) supplied by `fetchO`:
`fetchO url` is the extracted text on success, `none` for any
network-level failure.  Validates the URL shape, enforces the per-domain
rate limit, applies the content filters, records the request in the
domain history, and returns the text truncated to 3000 characters next
to the untruncated length.  Wall-clock fetch latency is modelled as 0. -/
def fetch_safe_content (fetchO : String → Option String) (st : WebState)
    (now : Int) (url : String) : FetchResult × WebState :=
  if urlScheme url = "" ∨ urlNetloc url = "" then
    (.failure "Invalid URL", st)
  else
    let domain := domainOf url
    if is_rate_limited st now (some domain) then
      (.failure "Domain rate limit exceeded", st)
    else
      match fetchO url with
      | none => (.failure "Request failed", st)
      | some text_content =>
        let (is_safe, filter_reason) := apply_content_filters text_content
        if !is_safe then
          (.failure ("Content filtered: " ++ filter_reason), st)
        else
          (.success (strTake text_content 3000) 0 text_content.length url,
           record_request st now (some domain))

/-- `generate_cache_key`: the MD5 fingerprint of the query (identity
fingerprint in the model). -/
def generate_cache_key (query : String) : String := query

/-- The per-result loop of `search_web_safely`: only results that are
trusted with trust score above 0.5 are fetched; successful fetches are
collected and logged, low-trust results are logged as filtered, and
failed fetches of trusted results are dropped without a log row. -/
def processResults (fetchO : String → Option String) (now : Int)
    (query : String) (user_context : Option String) :
    List RawResult → WebState → List ProcessedResult × WebState
  | [], st => ([], st)
  | r :: rest, st =>
    let (is_trusted, trust_score, trust_reason) := is_trusted_domain r.url
    if is_trusted ∧ 50 < trust_score then
      match fetch_safe_content fetchO st now r.url with
      | (.success content fetch_time _ _, st1) =>
        let pr : ProcessedResult :=
          ⟨r.title, r.url, r.snippet, content, trust_score, trust_reason,
           fetch_time, content.length⟩
        let st2 := log_web_request st1 query r.url true content.length
          fetch_time trust_score none user_context
        let (ps, st3) := processResults fetchO now query user_context rest st2
        (pr :: ps, st3)
      | (.failure _, st1) =>
        processResults fetchO now query user_context rest st1
    else
      let st1 := log_web_request st query r.url false 0 0 trust_score
        (some ("Domain not trusted: " ++ trust_reason)) user_context
      processResults fetchO now query user_context rest st1

/-- Search core after the safety, rate-limit and cache stages: run the
provider, process every result, record one global rate-limit timestamp
for the whole search, and cache the aggregate payload.  Search latency is
modelled as 0. -/
def searchGo (rawResults : List RawResult) (fetchO : String → Option String)
    (st : WebState) (now : Int) (query : String)
    (user_context : Option String) : SearchOutcome × WebState :=
  if rawResults = [] then
    (.fail "No search results found" "", st)
  else
    let (processed, st1) := processResults fetchO now query user_context rawResults st
    let st2 := record_request st1 now none
    let data : SearchData := ⟨query, processed, processed.length, 0⟩
    let st3 := { st2 with
      cache := updateAssoc st2.cache (generate_cache_key query) ⟨data, now⟩ }
    (.ok data, st3)

/-- `search_web_safely(query, ...)`, with the search provider
(`simple_search_fallback`) supplied as the oracle list `rawResults` and
page fetching supplied by `fetchO`.  Pipeline: query safety filter
(blocked attempts are audited with severity HIGH), global rate limit,
cache lookup with 1800 s TTL, then `searchGo`. -/
def search_web_safely (rawResults : List RawResult)
    (fetchO : String → Option String) (st : WebState) (now : Int)
    (query : String) (user_context : Option String) : SearchOutcome × WebState :=
  let (is_safe, safety_reason) := is_safe_query query
  if !is_safe then
    (.fail "Query blocked by safety filter" safety_reason,
     log_blocked_attempt st query "" safety_reason "HIGH")
  else if is_rate_limited st now none then
    (.fail "Rate limit exceeded" "Too many requests, please wait", st)
  else
    match st.cache.lookup (generate_cache_key query) with
    | some cached =>
      if now - cached.timestamp < 1800 then (.ok cached.data, st)
      else searchGo rawResults fetchO st now query user_context
    | none => searchGo rawResults fetchO st now query user_context

end FixedWebAccess

namespace FixedWebAccess

/-- The claim's reading of `is_trusted_domain`, differing from the source
only in matching the trusted-domain table by SUFFIX instead of substring
containment (refinement reference, written from the spec's words). -/
def is_trusted_domain_spec (url : String) : Bool × Nat × String :=
  let domain := domainOf url
  if blocked_domains.any (fun b => containsSub b.data domain.data) then
    (false, 0, "Domain " ++ domain ++ " is blocked")
  else
    match trusted_domains.find? (fun td => td.1.data.isSuffixOf domain.data) with
    | some td => (true, td.2.trust, "Trusted domain: " ++ td.2.dtype)
    | none => (false, 20, "Domain " ++ domain ++ " is not in trusted list")

/-- Fresh web-access state: empty rate history, cache and audit logs. -/
def emptyWebState : WebState := ⟨[], [], [], []⟩

/-- Concrete raw search result used in counterexamples and witnesses. -/
def wikiResult : RawResult :=
  ⟨"Cat", "https://en.wikipedia.org/wiki/Cat", "about cats"⟩

/-- Concrete fetch oracle: every URL yields a fixed 60-character page
text that passes all content filters. -/
def catFetchO : String → Option String :=
  fun _ => some "The cat is a small domesticated carnivorous mammal of family"

end FixedWebAccess

namespace ContentPolicyModule

/-- The threshold table installed by `__init__` of
`content_policy_module.py`. -/
def initial_policies (l : ContentLevel) (c : ContentCategory) : Nat :=
  match l, c with
  | .safe, .violence => 10
  | .safe, .adult => 0
  | .safe, .hate_speech => 0
  | .safe, .illegal => 0
  | .safe, .medical => 30
  | .safe, .political => 20
  | .safe, .controversial => 20
  | .safe, .educational => 100
  | .safe, .technical => 100
  | .safe, .creative => 80
  | .educational, .violence => 30
  | .educational, .adult => 10
  | .educational, .hate_speech => 10
  | .educational, .illegal => 20
  | .educational, .medical => 80
  | .educational, .political => 70
  | .educational, .controversial => 60
  | .educational, .educational => 100
  | .educational, .technical => 100
  | .educational, .creative => 100
  | .research, .violence => 60
  | .research, .adult => 40
  | .research, .hate_speech => 30
  | .research, .illegal => 50
  | .research, .medical => 100
  | .research, .political => 100
  | .research, .controversial => 90
  | .research, .educational => 100
  | .research, .technical => 100
  | .research, .creative => 100
  | .unrestricted, .violence => 80
  | .unrestricted, .adult => 70
  | .unrestricted, .hate_speech => 50
  | .unrestricted, .illegal => 30
  | .unrestricted, .medical => 100
  | .unrestricted, .political => 100
  | .unrestricted, .controversial => 100
  | .unrestricted, .educational => 100
  | .unrestricted, .technical => 100
  | .unrestricted, .creative => 100

/-- Concrete engine state holding one live Unrestricted-level session
token, used by the round-trip witness. -/
def roundTripState : CPMState :=
  { current_level := .safe
    session_tokens := [("tok7", ⟨"operator", .unrestricted, 100⟩)]
    policies := initial_policies
    temporary_overrides := []
    policy_changes := [] }

end ContentPolicyModule

namespace FixedContentPolicy

/-- Fresh policy-engine state at level `"safe"` with no sessions,
overrides or audit rows. -/
def emptyPolicyState : PolicyState := ⟨"safe", [], [], []⟩

/-- State holding one Research-level session token expiring at time 5. -/
def tokenState : PolicyState :=
  ⟨"safe", [("tok", ⟨"u", "research", 5⟩)], [], []⟩

/-- State holding one Safe-level session token expiring at time 10. -/
def safeTokenState : PolicyState :=
  ⟨"safe", [("tok", ⟨"u", "safe", 10⟩)], [], []⟩

end FixedContentPolicy

/-! # Claims -/

/-! ## C6 — threshold monotonicity of the configured table -/

/-- C6: in the configured policy table, for every pair of levels
`L1 < L2` in the hierarchy and every category other than `illegal`, the
threshold at `L2` is at least the threshold at `L1`; and the `illegal`
threshold at `unrestricted` is strictly below the one at `research`
(the intentional safety floor). -/
theorem c6_threshold_monotonicity :
    (∀ p1 ∈ FixedContentPolicy.level_hierarchy,
      ∀ p2 ∈ FixedContentPolicy.level_hierarchy,
        p1.2 < p2.2 →
          ∀ c ∈ FixedContentPolicy.safe_policy.map Prod.fst,
            c ≠ "illegal" →
              FixedContentPolicy.thr p1.1 c ≤ FixedContentPolicy.thr p2.1 c)
    ∧ FixedContentPolicy.thr "unrestricted" "illegal" <
        FixedContentPolicy.thr "research" "illegal" := by
  decide

/-- Witness for C6 at concrete levels and a concrete category. -/
theorem c6_threshold_monotonicity_witness :
    FixedContentPolicy.thr "safe" "violence" ≤
      FixedContentPolicy.thr "educational" "violence"
    ∧ FixedContentPolicy.thr "unrestricted" "illegal" <
        FixedContentPolicy.thr "research" "illegal" :=
  ⟨c6_threshold_monotonicity.1 ("safe", 0) (by decide) ("educational", 1)
      (by decide) (by decide) "violence" (by decide) (by decide),
   c6_threshold_monotonicity.2⟩


/-! ## C4 — domain trust resolution -/

namespace FixedWebAccess

/-- The blocked-substring test of `is_trusted_domain` on the host of a
URL (abbreviation used by the C4 statements). -/
def blockedHit (url : String) : Bool :=
  blocked_domains.any (fun b => containsSub b.data (domainOf url).data)

/-- The trusted-table substring lookup of `is_trusted_domain` on the host
of a URL (abbreviation used by the C4 statements). -/
def trustedHit (url : String) : Option (String × DomainInfo) :=
  trusted_domains.find? (fun td => containsSub td.1.data (domainOf url).data)

end FixedWebAccess

/-- C4 counterexample: for `https://github.com.evil.org/x` the host
matches no blocked substring and is a suffix of no trusted-table entry,
yet the source function trusts it with github's score (the table is
matched by substring containment, not by suffix as the claim states);
the suffix-based reading of the claim returns the not-trusted default. -/
theorem c4_counterexample :
    FixedWebAccess.is_trusted_domain "https://github.com.evil.org/x" =
      (true, 80, "Trusted domain: code_repository")
    ∧ FixedWebAccess.is_trusted_domain_spec "https://github.com.evil.org/x" =
        (false, 20, "Domain github.com.evil.org is not in trusted list")
    ∧ (∀ td ∈ FixedWebAccess.trusted_domains,
        td.1.data.isSuffixOf
          (FixedWebAccess.domainOf "https://github.com.evil.org/x").data = false)
    ∧ (∀ b ∈ FixedWebAccess.blocked_domains,
        containsSub b.data
          (FixedWebAccess.domainOf "https://github.com.evil.org/x").data = false) := by
  decide

/-- C4 (amended): `is_trusted_domain` works on the lower-cased,
`www.`-stripped host; it returns blocked with trust 0 whenever a
blocked-domain substring occurs in the host (this check always wins);
otherwise it matches the trusted table by SUBSTRING containment (first
entry in table order) and returns that entry's trust score; otherwise it
returns the not-trusted default 0.2. -/
theorem c4_substring_trust (url : String) :
    ((FixedWebAccess.is_trusted_domain url).1 = true ↔
      (FixedWebAccess.blockedHit url = false ∧
        ∃ td ∈ FixedWebAccess.trusted_domains,
          containsSub td.1.data (FixedWebAccess.domainOf url).data = true))
    ∧ (FixedWebAccess.blockedHit url = true →
        FixedWebAccess.is_trusted_domain url =
          (false, 0, "Domain " ++ FixedWebAccess.domainOf url ++ " is blocked"))
    ∧ (∀ td, FixedWebAccess.blockedHit url = false →
        FixedWebAccess.trustedHit url = some td →
        FixedWebAccess.is_trusted_domain url =
          (true, td.2.trust, "Trusted domain: " ++ td.2.dtype))
    ∧ (FixedWebAccess.blockedHit url = false →
        FixedWebAccess.trustedHit url = none →
        FixedWebAccess.is_trusted_domain url =
          (false, 20,
            "Domain " ++ FixedWebAccess.domainOf url ++ " is not in trusted list")) := by
  cases hb : FixedWebAccess.blockedHit url with
  | true =>
    have hval : FixedWebAccess.is_trusted_domain url =
        (false, 0, "Domain " ++ FixedWebAccess.domainOf url ++ " is blocked") := by
      unfold FixedWebAccess.blockedHit at hb
      simp [FixedWebAccess.is_trusted_domain, hb]
    refine ⟨?_, fun _ => hval, ?_, ?_⟩
    · rw [hval]
      exact ⟨fun h => absurd h Bool.false_ne_true, fun h => absurd h.1 (by decide)⟩
    · intro td hb2 _
      exact absurd hb2 (by decide)
    · intro hb2 _
      exact absurd hb2 (by decide)
  | false =>
    cases hf : FixedWebAccess.trustedHit url with
    | some td =>
      have hval : FixedWebAccess.is_trusted_domain url =
          (true, td.2.trust, "Trusted domain: " ++ td.2.dtype) := by
        unfold FixedWebAccess.blockedHit at hb
        unfold FixedWebAccess.trustedHit at hf
        simp [FixedWebAccess.is_trusted_domain, hb, hf]
      refine ⟨?_, ?_, ?_, ?_⟩
      · rw [hval]
        refine ⟨fun _ => ⟨rfl, td, List.mem_of_find?_eq_some hf, ?_⟩, fun _ => rfl⟩
        have h2 := List.find?_some hf
        simpa using h2
      · intro hb2
        exact absurd hb2 (by decide)
      · intro td2 _ hf2
        injection hf2 with h
        rw [← h]
        exact hval
      · intro _ hf2
        exact absurd hf2 (by simp)
    | none =>
      have hval : FixedWebAccess.is_trusted_domain url =
          (false, 20,
            "Domain " ++ FixedWebAccess.domainOf url ++ " is not in trusted list") := by
        unfold FixedWebAccess.blockedHit at hb
        unfold FixedWebAccess.trustedHit at hf
        simp [FixedWebAccess.is_trusted_domain, hb, hf]
      refine ⟨?_, ?_, ?_, fun _ _ => hval⟩
      · rw [hval]
        refine ⟨fun h => absurd h Bool.false_ne_true, ?_⟩
        rintro ⟨-, td, htdmem, htdsub⟩
        unfold FixedWebAccess.trustedHit at hf
        rw [List.find?_eq_none] at hf
        exact absurd htdsub (by simpa using hf td htdmem)
      · intro hb2
        exact absurd hb2 (by decide)
      · intro td2 _ hf2
        exact absurd hf2 (by simp)

/-- Witness for C4 at `https://en.wikipedia.org/wiki/Cat`: trusted with
the configured Wikipedia trust score. -/
theorem c4_substring_trust_witness :
    FixedWebAccess.is_trusted_domain "https://en.wikipedia.org/wiki/Cat" =
      (true, 90, "Trusted domain: encyclopedia") :=
  (c4_substring_trust "https://en.wikipedia.org/wiki/Cat").2.2.1
    ("wikipedia.org", ⟨"encyclopedia", 90, 10⟩) (by decide) (by decide)

/-! ## C8 — short-content rejection in `apply_content_filters` -/

/-- C8 counterexample: a 40-character, non-blank body containing three
distinct adult keywords is rejected with the keyword-density reason, not
the too-short reason — the density filter runs before the length check. -/
theorem c8_counterexample :
    FixedWebAccess.apply_content_filters "explicit nsfw adult content aaaaaaaaaaaa" =
      (false, "Content blocked: high adult_keywords content density")
    ∧ "explicit nsfw adult content aaaaaaaaaaaa".length = 40
    ∧ isBlank "explicit nsfw adult content aaaaaaaaaaaa" = false
    ∧ "Content blocked: high adult_keywords content density" ≠
        "Content too short" := by
  decide

/-- C8 (amended): every non-blank text shorter than 50 characters in
which NO unsafe-keyword category has more than two distinct hits is
rejected with the too-short reason; texts that do trip the density
filter are rejected with that category's density reason instead. -/
theorem c8_short_content (content : String)
    (h0 : isBlank content = false)
    (h1 : content.length < 50)
    (h2 : ∀ p ∈ FixedWebAccess.safety_filters,
      p.2.countP (fun k => containsSub k.data (lowerStr content.data)) ≤ 2) :
    FixedWebAccess.apply_content_filters content = (false, "Content too short") := by
  unfold FixedWebAccess.apply_content_filters
  rw [h0]
  have hnone : FixedWebAccess.safety_filters.findSome? (fun p =>
      if 2 < p.2.countP (fun k => containsSub k.data (lowerStr content.data)) then
        some p.1
      else none) = none := by
    rw [List.findSome?_eq_none_iff]
    intro p hp
    have := h2 p hp
    simp only [ite_eq_right_iff]
    intro hlt
    omega
  simp only [Bool.false_eq_true, if_false, hnone, h1, if_pos]

/-- Witness for C8: a clean 40-character body is rejected as too short. -/
theorem c8_short_content_witness :
    FixedWebAccess.apply_content_filters "a quiet walk in the park on a clear day" =
      (false, "Content too short") :=
  c8_short_content "a quiet walk in the park on a clear day" (by decide)
    (by decide) (by decide)

/-! ## C3 / C9 — token verification -/

/-- Lookup of a key fails on a list filtered by a predicate that rules
that key out. -/
theorem lookup_filter_none {α : Type} (l : List (String × α)) (k : String)
    (f : String × α → Bool) (hf : ∀ p, f p = true → p.1 ≠ k) :
    (l.filter f).lookup k = none := by
  rw [List.lookup_eq_none_iff]
  intro p hp
  have hmem := List.mem_filter.mp hp
  have hne := hf p hmem.2
  simp only [bne_iff_ne]
  exact fun hk => hne hk.symm

/-- C3 counterexample: at the exact expiry instant (`now = expiry`) the
token's expiry is not in the future, yet verification still succeeds —
the code refuses only when `now > expiry`. -/
theorem c3_counterexample :
    FixedContentPolicy.tokenState.session_tokens.lookup "tok" =
      some ⟨"u", "research", 5⟩
    ∧ (FixedContentPolicy.verify_authorization
        FixedContentPolicy.tokenState 5 "tok" "safe").1 = true
    ∧ ¬ (5 < 5) := by
  decide

/-- C3 (amended): verification succeeds iff the token is nonempty,
present in the session table, not yet strictly past its expiry
(`now ≤ expiry` — a call at the exact expiry instant still succeeds) and
the granted level's rank is at least the required level's rank; any
nonempty token whose expiry lies strictly before `now` is evicted by the
first verification call, which returns false, and so do all later calls
at any time and required level. -/
theorem c3_verify_authorization :
    (∀ st now token required,
      ((FixedContentPolicy.verify_authorization st now token required).1 = true ↔
        (token ≠ "" ∧ ∃ s, st.session_tokens.lookup token = some s ∧
          now ≤ s.expiry ∧
          FixedContentPolicy.hget required ≤ FixedContentPolicy.hget s.level)))
    ∧ (∀ st now token required s,
        st.session_tokens.lookup token = some s → s.expiry < now → token ≠ "" →
        (FixedContentPolicy.verify_authorization st now token required).1 = false
        ∧ ((FixedContentPolicy.verify_authorization st now token
              required).2).session_tokens.lookup token = none
        ∧ (∀ now2 required2,
            (FixedContentPolicy.verify_authorization
              (FixedContentPolicy.verify_authorization st now token required).2
              now2 token required2).1 = false)) := by
  have hmain : ∀ st now token required,
      ((FixedContentPolicy.verify_authorization st now token required).1 = true ↔
        (token ≠ "" ∧ ∃ s, st.session_tokens.lookup token = some s ∧
          now ≤ s.expiry ∧
          FixedContentPolicy.hget required ≤ FixedContentPolicy.hget s.level)) := by
    intro st now token required
    unfold FixedContentPolicy.verify_authorization
    by_cases ht : token = ""
    · rw [if_pos ht]
      exact ⟨fun h => absurd h Bool.false_ne_true, fun h => absurd ht h.1⟩
    · rw [if_neg ht]
      cases hl : st.session_tokens.lookup token with
      | none =>
        dsimp only
        constructor
        · intro h
          exact absurd h Bool.false_ne_true
        · rintro ⟨-, s, hs, -⟩
          cases hs
      | some s =>
        dsimp only
        by_cases hexp : s.expiry < now
        · rw [if_pos hexp]
          constructor
          · intro h
            exact absurd h Bool.false_ne_true
          · rintro ⟨-, s2, hs2, hnow, -⟩
            injection hs2 with h2
            subst h2
            omega
        · rw [if_neg hexp]
          simp only [decide_eq_true_eq]
          constructor
          · intro h
            exact ⟨ht, s, rfl, by omega, h⟩
          · rintro ⟨-, s2, hs2, -, hle⟩
            injection hs2 with h2
            subst h2
            exact hle
  refine ⟨hmain, ?_⟩
  intro st now token required s hl hexp hne
  have hres : FixedContentPolicy.verify_authorization st now token required =
      (false, { st with
        session_tokens :=
          st.session_tokens.filter (fun p => p.1 ≠ token) }) := by
    simp [FixedContentPolicy.verify_authorization, hne, hl, hexp]
  have hgone : (st.session_tokens.filter
      (fun p => p.1 ≠ token)).lookup token = none :=
    lookup_filter_none _ _ _ (fun p hp => of_decide_eq_true hp)
  refine ⟨by rw [hres], by rw [hres]; exact hgone, ?_⟩
  intro now2 required2
  rw [hres]
  rw [Bool.eq_false_iff]
  intro htrue
  obtain ⟨-, s2, hs2, -⟩ := (hmain _ now2 token required2).mp htrue
  rw [hgone] at hs2
  cases hs2

/-- Witness for C3: a Research token expiring at 5 authorizes
Educational at time 3; at time 9 it is expired, refused and evicted. -/
theorem c3_verify_authorization_witness :
    (FixedContentPolicy.verify_authorization
      FixedContentPolicy.tokenState 3 "tok" "educational").1 = true
    ∧ (FixedContentPolicy.verify_authorization
        FixedContentPolicy.tokenState 9 "tok" "safe").1 = false
    ∧ ((FixedContentPolicy.verify_authorization
        FixedContentPolicy.tokenState 9 "tok" "safe").2).session_tokens.lookup
          "tok" = none := by
  have hb := c3_verify_authorization.2 FixedContentPolicy.tokenState 9 "tok"
    "safe" ⟨"u", "research", 5⟩ (by decide) (by decide) (by decide)
  exact ⟨(c3_verify_authorization.1 FixedContentPolicy.tokenState 3 "tok"
      "educational").mpr
        ⟨by decide, ⟨"u", "research", 5⟩, by decide, by decide, by decide⟩,
    hb.1, hb.2.1⟩

/-- C9: the hierarchy lookup falls back to rank 0 for any string outside
the four known level names, so any live (present, unexpired, nonempty)
token — even a Safe-level one — authorizes any unrecognized required
level. -/
theorem c9_unknown_level_authorizes (st : FixedContentPolicy.PolicyState)
    (now : Nat) (token required : String) (s : FixedContentPolicy.SessionInfo)
    (hne : token ≠ "")
    (hl : st.session_tokens.lookup token = some s)
    (hexp : now ≤ s.expiry)
    (hreq : required ∉ ["safe", "educational", "research", "unrestricted"]) :
    (FixedContentPolicy.verify_authorization st now token required).1 = true := by
  simp only [List.mem_cons, List.not_mem_nil, or_false, not_or] at hreq
  obtain ⟨h1, h2, h3, h4⟩ := hreq
  have e1 : (required == "safe") = false := by
    simpa using h1
  have e2 : (required == "educational") = false := by
    simpa using h2
  have e3 : (required == "research") = false := by
    simpa using h3
  have e4 : (required == "unrestricted") = false := by
    simpa using h4
  have hzero : FixedContentPolicy.hget required = 0 := by
    simp [FixedContentPolicy.hget, lookupD, FixedContentPolicy.level_hierarchy,
      List.lookup, e1, e2, e3, e4]
  simp [FixedContentPolicy.verify_authorization, hne, hl, Nat.not_lt.mpr hexp,
    hzero]

/-- Witness for C9: a Safe-level token authorizes the unknown required
level `"superuser"`. -/
theorem c9_unknown_level_authorizes_witness :
    (FixedContentPolicy.verify_authorization
      FixedContentPolicy.safeTokenState 0 "tok" "superuser").1 = true :=
  c9_unknown_level_authorizes FixedContentPolicy.safeTokenState 0 "tok"
    "superuser" ⟨"u", "safe", 10⟩ (by decide) (by decide) (by decide) (by decide)

/-! ## C1 / C2 — content evaluation -/

/-- The violation-collection fold never allows once a strict excess is
met without an override: its flag component is the conjunction of the
initial flag with "no category triggers". -/
theorem violStep_foldl_snd (pol : List (String × Nat)) (ov : Bool)
    (scores : List (String × Nat)) (acc : List String × Bool) :
    (scores.foldl (FixedContentPolicy.violStep pol ov) acc).2 =
      (acc.2 && !(scores.any (fun p =>
        decide (lookupD pol p.1 0 < p.2 ∧ ov = false)))) := by
  induction scores generalizing acc with
  | nil => simp
  | cons p rest ih =>
    rw [List.foldl_cons, List.any_cons, ih]
    by_cases hc : lookupD pol p.1 0 < p.2 ∧ ov = false
    · unfold FixedContentPolicy.violStep
      rw [if_pos hc, decide_eq_true hc]
      simp
    · unfold FixedContentPolicy.violStep
      rw [if_neg hc, decide_eq_false hc]
      simp

/-- With the override flag set, the violation fold is the identity. -/
theorem violStep_foldl_override (pol : List (String × Nat))
    (scores : List (String × Nat)) (acc : List String × Bool) :
    scores.foldl (FixedContentPolicy.violStep pol true) acc = acc := by
  induction scores generalizing acc with
  | nil => rfl
  | cons p rest ih =>
    rw [List.foldl_cons]
    have hstep : FixedContentPolicy.violStep pol true acc p = acc := by
      unfold FixedContentPolicy.violStep
      rw [if_neg (by simp)]
    rw [hstep, ih]

/-- The override scan returns `none` (the early `return True`) exactly
when some unexpired pattern matches the content. -/
theorem scanOverrides_none_iff (now : Nat) (content : String)
    (l : List (String × FixedContentPolicy.OverrideInfo)) :
    FixedContentPolicy.scanOverrides now content l = none ↔
      ∃ q ∈ l, now ≤ q.2.expiry ∧
        containsSub (lowerStr q.1.data) (lowerStr content.data) = true := by
  induction l with
  | nil => simp [FixedContentPolicy.scanOverrides]
  | cons q rest ih =>
    rcases q with ⟨pat, info⟩
    unfold FixedContentPolicy.scanOverrides
    by_cases hexp : info.expiry < now
    · rw [if_pos hexp, Option.map_eq_none', ih]
      constructor
      · rintro ⟨r, hr, hle, hcs⟩
        exact ⟨r, List.mem_cons_of_mem _ hr, hle, hcs⟩
      · rintro ⟨r, hr, hle, hcs⟩
        cases List.mem_cons.mp hr with
        | inl he =>
          subst he
          dsimp only at hle
          omega
        | inr hm => exact ⟨r, hm, hle, hcs⟩
    · by_cases hcs : containsSub (lowerStr pat.data) (lowerStr content.data) = true
      · rw [if_neg hexp, if_pos hcs]
        simp only [true_iff]
        exact ⟨(pat, info), List.mem_cons_self _ _, by dsimp only; omega, hcs⟩
      · rw [if_neg hexp, if_neg hcs, ih]
        constructor
        · rintro ⟨r, hr, hle, hcs2⟩
          exact ⟨r, List.mem_cons_of_mem _ hr, hle, hcs2⟩
        · rintro ⟨r, hr, hle, hcs2⟩
          cases List.mem_cons.mp hr with
          | inl he =>
            subst he
            exact absurd hcs2 hcs
          | inr hm => exact ⟨r, hm, hle, hcs2⟩

/-- `check_temporary_overrides` succeeds exactly when some unexpired
pattern matches. -/
theorem check_overrides_iff (st : FixedContentPolicy.PolicyState) (now : Nat)
    (content : String) :
    (FixedContentPolicy.check_temporary_overrides st now content).1 = true ↔
      ∃ q ∈ st.temporary_overrides, now ≤ q.2.expiry ∧
        containsSub (lowerStr q.1.data) (lowerStr content.data) = true := by
  unfold FixedContentPolicy.check_temporary_overrides
  cases hs : FixedContentPolicy.scanOverrides now content st.temporary_overrides with
  | none =>
    simp only [true_iff]
    exact (scanOverrides_none_iff now content st.temporary_overrides).mp hs
  | some expired =>
    dsimp only
    constructor
    · intro hfalse
      exact absurd hfalse Bool.false_ne_true
    · intro hex
      have := (scanOverrides_none_iff now content st.temporary_overrides).mpr hex
      rw [hs] at this
      cases this

/-- `check_temporary_overrides` never touches the audit store. -/
theorem check_overrides_log (st : FixedContentPolicy.PolicyState) (now : Nat)
    (content : String) :
    (FixedContentPolicy.check_temporary_overrides st now
      content).2.content_evaluations = st.content_evaluations := by
  unfold FixedContentPolicy.check_temporary_overrides
  cases FixedContentPolicy.scanOverrides now content st.temporary_overrides <;> rfl

/-- C2: for non-blank content, the evaluation is not-allowed iff no
unexpired override pattern matches AND some category score strictly
exceeds its threshold at the active level (exact equality never
violates, since the comparison is strict); the override flag of the
result is exactly the override check, a matching unexpired override
forces `allowed = true` with no violations. -/
theorem c2_violation_rule (st : FixedContentPolicy.PolicyState) (now : Nat)
    (content : String) (ctx : Option String)
    (h : isBlank content = false) :
    ((FixedContentPolicy.evaluate_content st now content ctx).1.allowed = false ↔
      ((FixedContentPolicy.check_temporary_overrides st now content).1 = false ∧
        ∃ p ∈ FixedContentPolicy.category_scores content,
          FixedContentPolicy.thr st.current_level p.1 < p.2))
    ∧ ((FixedContentPolicy.evaluate_content st now content ctx).1.override_applied =
        (FixedContentPolicy.check_temporary_overrides st now content).1)
    ∧ ((FixedContentPolicy.check_temporary_overrides st now content).1 = true ↔
        ∃ q ∈ st.temporary_overrides, now ≤ q.2.expiry ∧
          containsSub (lowerStr q.1.data) (lowerStr content.data) = true)
    ∧ ((FixedContentPolicy.check_temporary_overrides st now content).1 = true →
        (FixedContentPolicy.evaluate_content st now content ctx).1.allowed = true ∧
        (FixedContentPolicy.evaluate_content st now content ctx).1.violations = []) := by
  refine ⟨?_, ?_, check_overrides_iff st now content, ?_⟩
  · rcases hco : FixedContentPolicy.check_temporary_overrides st now content
      with ⟨ov, st1⟩
    unfold FixedContentPolicy.evaluate_content
    rw [h]
    simp only [Bool.false_eq_true, if_false, hco]
    rw [violStep_foldl_snd]
    simp only [Bool.true_and, Bool.not_eq_false', List.any_eq_true,
      decide_eq_true_eq, FixedContentPolicy.thr]
    constructor
    · rintro ⟨p, hp, hlt, hov⟩
      exact ⟨hov, p, hp, hlt⟩
    · rintro ⟨hov, p, hp, hlt⟩
      exact ⟨p, hp, hlt, hov⟩
  · rcases hco : FixedContentPolicy.check_temporary_overrides st now content
      with ⟨ov, st1⟩
    unfold FixedContentPolicy.evaluate_content
    rw [h]
    simp only [Bool.false_eq_true, if_false, hco]
  · intro hov
    rcases hco : FixedContentPolicy.check_temporary_overrides st now content
      with ⟨ov, st1⟩
    rw [hco] at hov
    subst hov
    unfold FixedContentPolicy.evaluate_content
    rw [h]
    simp only [Bool.false_eq_true, if_false, hco]
    rw [violStep_foldl_override]
    exact ⟨rfl, rfl⟩

/-- Witness for C2: `"hello"` trips no detector at level `"safe"` and is
allowed. -/
theorem c2_violation_rule_witness :
    (FixedContentPolicy.evaluate_content FixedContentPolicy.emptyPolicyState 0
      "hello" none).1.allowed = true := by
  have h := (c2_violation_rule FixedContentPolicy.emptyPolicyState 0 "hello"
    none (by decide)).1
  cases hall : (FixedContentPolicy.evaluate_content
      FixedContentPolicy.emptyPolicyState 0 "hello" none).1.allowed with
  | false => exact absurd (h.mp hall) (by decide)
  | true => rfl

/-- C1 counterexample: evaluating empty content appends NO audit record
(the early return precedes the logging call), while the claim demands
exactly one appended record for every call. -/
theorem c1_counterexample :
    (FixedContentPolicy.evaluate_content FixedContentPolicy.emptyPolicyState 0
      "" none).2.content_evaluations.length = 0
    ∧ (0 : Nat) ≠
        FixedContentPolicy.emptyPolicyState.content_evaluations.length + 1 := by
  decide

/-- C1 (amended): a call on non-blank content appends exactly one
`EvaluationRecord` (built from the fingerprint, the result and the user
context) to the audit store; a call on empty or whitespace-only content
appends none and still degrades to a not-allowed result carrying the
empty-content error marker. -/
theorem c1_audit_append (st : FixedContentPolicy.PolicyState) (now : Nat)
    (content : String) (ctx : Option String) :
    ((FixedContentPolicy.evaluate_content st now content
        ctx).2.content_evaluations =
      if isBlank content then st.content_evaluations
      else st.content_evaluations ++
        [FixedContentPolicy.recordOf (FixedContentPolicy.md5_model content)
          (FixedContentPolicy.evaluate_content st now content ctx).1 ctx])
    ∧ (isBlank content = true →
        (FixedContentPolicy.evaluate_content st now content ctx).1.allowed = false
        ∧ (FixedContentPolicy.evaluate_content st now content ctx).1.block_reason =
            some "Empty or invalid content") := by
  by_cases hb : isBlank content
  · constructor
    · rw [if_pos hb]
      unfold FixedContentPolicy.evaluate_content
      rw [if_pos hb]
    · intro _
      unfold FixedContentPolicy.evaluate_content
      rw [if_pos hb]
      exact ⟨rfl, rfl⟩
  · have hb2 : isBlank content = false := by
      cases hbv : isBlank content
      · rfl
      · exact absurd hbv hb
    constructor
    · rw [if_neg hb]
      have hlog := check_overrides_log st now content
      rcases hco : FixedContentPolicy.check_temporary_overrides st now content
        with ⟨ov, st1⟩
      rw [hco] at hlog
      unfold FixedContentPolicy.evaluate_content
      rw [hb2]
      simp only [Bool.false_eq_true, if_false, hco]
      rw [hlog]
    · intro habs
      exact absurd habs hb

/-- Witness for C1: whitespace-only content appends nothing to the audit
store and is refused with the empty-content marker. -/
theorem c1_audit_append_witness :
    (FixedContentPolicy.evaluate_content FixedContentPolicy.emptyPolicyState 0
      " " none).2.content_evaluations = []
    ∧ (FixedContentPolicy.evaluate_content FixedContentPolicy.emptyPolicyState 0
        " " none).1.allowed = false
    ∧ (FixedContentPolicy.evaluate_content FixedContentPolicy.emptyPolicyState 0
        " " none).1.block_reason = some "Empty or invalid content" := by
  have h := c1_audit_append FixedContentPolicy.emptyPolicyState 0 " " none
  have h2 := h.2 (by decide)
  refine ⟨?_, h2.1, h2.2⟩
  rw [h.1, if_pos (by decide)]
  rfl

/-! ## C10 — fetch result truncation -/

/-- C10: whenever `fetch_safe_content` succeeds, the returned `content`
is the sanitized text truncated to at most 3000 characters while
`content_length` is the length of the untruncated text (so the latter
can exceed the length of the returned content, as the witness shows). -/
theorem c10_truncated_content (fetchO : String → Option String)
    (st : FixedWebAccess.WebState) (now : Int) (url : String)
    (content : String) (ftime : Int) (clen : Nat) (u : String)
    (st2 : FixedWebAccess.WebState)
    (h : FixedWebAccess.fetch_safe_content fetchO st now url =
      (FixedWebAccess.FetchResult.success content ftime clen u, st2)) :
    ∃ t, fetchO url = some t ∧ content = strTake t 3000 ∧
      content.length ≤ 3000 ∧ clen = t.length := by
  unfold FixedWebAccess.fetch_safe_content at h
  split at h
  · simp at h
  · dsimp only at h
    split at h
    · simp at h
    · cases heq : fetchO url with
      | none =>
        rw [heq] at h
        simp at h
      | some text =>
        rw [heq] at h
        dsimp only at h
        rcases hfl : FixedWebAccess.apply_content_filters text with ⟨ok, reason⟩
        rw [hfl] at h
        dsimp only at h
        cases ok with
        | false => simp at h
        | true =>
          rw [if_neg (by decide)] at h
          rw [Prod.mk.injEq] at h
          obtain ⟨hr, -⟩ := h
          injection hr with h1 h2 h3 h4
          refine ⟨text, rfl, h1.symm, ?_, h3.symm⟩
          rw [← h1]
          show (List.take 3000 text.data).length ≤ 3000
          exact List.length_take_le _ _

/-- Substring containment implies character containment. -/
theorem containsSub_subset (needle : List Char) :
    ∀ hay, containsSub needle hay = true → ∀ c ∈ needle, c ∈ hay := by
  intro hay
  induction hay with
  | nil =>
    intro h c hc
    unfold containsSub at h
    rw [List.isEmpty_iff] at h
    subst h
    cases hc
  | cons a rest ih =>
    intro h c hc
    unfold containsSub at h
    rw [Bool.or_eq_true] at h
    cases h with
    | inl hpre =>
      exact (List.isPrefixOf_iff_prefix.mp hpre).subset hc
    | inr hrest => exact List.mem_cons_of_mem _ (ih hrest c hc)

/-- A needle containing any character other than `a` does not occur in a
run of `a`-characters. -/
theorem containsSub_replicate_false (needle : List Char) (n : Nat) (a : Char)
    (h : needle.any (fun c => decide (c ≠ a)) = true) :
    containsSub needle (List.replicate n a) = false := by
  cases hcs : containsSub needle (List.replicate n a) with
  | false => rfl
  | true =>
    obtain ⟨c, hc, hne⟩ := List.any_eq_true.mp h
    have hmem := containsSub_subset needle _ hcs c hc
    rw [List.mem_replicate] at hmem
    rw [decide_eq_true_eq] at hne
    exact absurd hmem.2 hne

/-- A run of `'a'`-characters is not empty. -/
theorem replicate_a_ne_nil : List.replicate 3001 'a' ≠ [] := by
  intro habs
  have h2 := congrArg List.length habs
  rw [List.length_replicate] at h2
  exact absurd h2 (by decide)

/-- A run of `'a'`-characters is not blank. -/
theorem isBlank_replicate_a :
    isBlank (String.mk (List.replicate 3001 'a')) = false := by
  unfold isBlank
  rw [Bool.eq_false_iff]
  intro hall
  rw [List.all_eq_true] at hall
  have := hall 'a' (by rw [List.mem_replicate]; exact ⟨by decide, rfl⟩)
  exact absurd this (by decide)

/-- On a whitespace-free tail, the split worker yields the single word
made of the accumulator and the tail. -/
theorem pySplitGo_nonspace (l : List Char)
    (h : ∀ c ∈ l, isSpaceChar c = false) :
    ∀ acc, pySplitGo acc l =
      if l = [] then (if acc = [] then [] else [acc.reverse])
      else [acc.reverse ++ l] := by
  induction l with
  | nil =>
    intro acc
    unfold pySplitGo
    rw [if_pos rfl]
  | cons c rest ih =>
    intro acc
    have hc := h c (List.mem_cons_self _ _)
    unfold pySplitGo
    rw [hc]
    simp only [Bool.false_eq_true, if_false]
    rw [ih (fun d hd => h d (List.mem_cons_of_mem _ hd)) (c :: acc)]
    by_cases hr : rest = []
    · subst hr
      rw [if_pos rfl, if_neg (List.cons_ne_nil c acc),
        if_neg (List.cons_ne_nil c []), List.reverse_cons]
    · rw [if_neg hr, if_neg (List.cons_ne_nil c rest), List.reverse_cons,
        List.append_assoc]
      rfl

/-- A run of `'a'`-characters splits into that single word. -/
theorem pySplit_replicate_a :
    pySplit (List.replicate 3001 'a') = [List.replicate 3001 'a'] := by
  unfold pySplit
  rw [pySplitGo_nonspace _
    (fun c hc => by rw [List.eq_of_mem_replicate hc]; decide) []]
  rw [if_neg replicate_a_ne_nil, List.reverse_nil, List.nil_append]

/-- The content filters pass a 3001-character run of `'a'`-characters. -/
theorem filters_long_a :
    FixedWebAccess.apply_content_filters (String.mk (List.replicate 3001 'a')) =
      (true, "Content is safe") := by
  have hlower : lowerStr (String.mk (List.replicate 3001 'a')).data =
      List.replicate 3001 'a' := by
    show (List.replicate 3001 'a').map Char.toLower = _
    rw [List.map_replicate]
    rfl
  have hall : ∀ p ∈ FixedWebAccess.safety_filters, ∀ k ∈ p.2,
      k.data.any (fun c => decide (c ≠ 'a')) = true := by decide
  have hfind : FixedWebAccess.safety_filters.findSome? (fun p =>
      if 2 < p.2.countP (fun k =>
        containsSub k.data (List.replicate 3001 'a')) then some p.1
      else none) = none := by
    rw [List.findSome?_eq_none_iff]
    intro p hp
    have hzero : p.2.countP (fun k =>
        containsSub k.data (List.replicate 3001 'a')) = 0 := by
      rw [List.countP_eq_zero]
      intro k hk
      rw [containsSub_replicate_false k.data 3001 'a' (hall p hp k hk)]
      exact Bool.false_ne_true
    rw [hzero]
    rfl
  have hlen : (String.mk (List.replicate 3001 'a')).length = 3001 := by
    show (List.replicate 3001 'a').length = 3001
    rw [List.length_replicate]
  unfold FixedWebAccess.apply_content_filters
  rw [isBlank_replicate_a]
  rw [if_neg Bool.false_ne_true]
  dsimp only
  rw [hlower, hfind]
  dsimp only
  rw [hlen]
  rw [if_neg (by decide)]
  rw [pySplit_replicate_a]
  rw [if_neg ?_]
  rintro ⟨h30, -⟩
  rw [List.length_singleton] at h30
  exact absurd h30 (by decide)

/-- Witness for C10: a 3001-character sanitized text is returned
truncated to 3000 characters while `content_length` reports 3001. -/
theorem c10_truncated_content_witness :
    (FixedWebAccess.fetch_safe_content
      (fun _ => some (String.mk (List.replicate 3001 'a')))
      FixedWebAccess.emptyWebState 0 "https://en.wikipedia.org/wiki/Cat").1 =
        FixedWebAccess.FetchResult.success
          (strTake (String.mk (List.replicate 3001 'a')) 3000) 0 3001
          "https://en.wikipedia.org/wiki/Cat"
    ∧ (strTake (String.mk (List.replicate 3001 'a')) 3000).length < 3001 := by
  have hlen : (String.mk (List.replicate 3001 'a')).length = 3001 := by
    show (List.replicate 3001 'a').length = 3001
    rw [List.length_replicate]
  have hres : FixedWebAccess.fetch_safe_content
      (fun _ => some (String.mk (List.replicate 3001 'a')))
      FixedWebAccess.emptyWebState 0 "https://en.wikipedia.org/wiki/Cat" =
      (FixedWebAccess.FetchResult.success
        (strTake (String.mk (List.replicate 3001 'a')) 3000) 0 3001
        "https://en.wikipedia.org/wiki/Cat",
       FixedWebAccess.record_request FixedWebAccess.emptyWebState 0
         (some (FixedWebAccess.domainOf "https://en.wikipedia.org/wiki/Cat"))) := by
    unfold FixedWebAccess.fetch_safe_content
    rw [if_neg (by decide)]
    dsimp only
    rw [if_neg (by decide)]
    rw [filters_long_a]
    dsimp only
    rw [if_neg (by decide)]
    rw [hlen]
  obtain ⟨t, -, -, hle, -⟩ :=
    c10_truncated_content _ _ _ _ _ _ _ _ _ hres
  exact ⟨by rw [hres], by omega⟩

/-! ## C7 — configuration export/import round trip -/

/-- Enum/value round trip for levels. -/
theorem cpm_level_fromValue_value (l : ContentPolicyModule.ContentLevel) :
    ContentPolicyModule.ContentLevel.fromValue l.value = some l := by
  cases l <;> rfl

/-- Enum/value round trip for categories. -/
theorem cpm_category_fromValue_value (c : ContentPolicyModule.ContentCategory) :
    ContentPolicyModule.ContentCategory.fromValue c.value = some c := by
  cases c <;> rfl

/-- Every hierarchy rank is at most the Unrestricted rank. -/
theorem cpm_rank_le_three (l : ContentPolicyModule.ContentLevel) :
    ContentPolicyModule.level_hierarchy l ≤ 3 := by
  cases l <;> decide

/-- Importing one level's exported category row restores every
threshold. -/
theorem applyCatEntries_self
    (g : ContentPolicyModule.ContentLevel → ContentPolicyModule.ContentCategory → Nat)
    (l : ContentPolicyModule.ContentLevel)
    (cats : List ContentPolicyModule.ContentCategory)
    (f : ContentPolicyModule.ContentLevel → ContentPolicyModule.ContentCategory → Nat)
    (hf : ∀ l' c', f l' c' = g l' c') :
    (ContentPolicyModule.applyCatEntries l
      (cats.map (fun c => (c.value, g l c))) f).2 = true
    ∧ ∀ l' c', (ContentPolicyModule.applyCatEntries l
        (cats.map (fun c => (c.value, g l c))) f).1 l' c' = g l' c' := by
  induction cats generalizing f with
  | nil => exact ⟨rfl, hf⟩
  | cons c rest ih =>
    rw [List.map_cons]
    unfold ContentPolicyModule.applyCatEntries
    rw [cpm_category_fromValue_value c]
    refine ih (ContentPolicyModule.updateTbl f l c (g l c)) ?_
    intro l' c'
    unfold ContentPolicyModule.updateTbl
    by_cases hlc : l' = l ∧ c' = c
    · rw [if_pos hlc, hlc.1, hlc.2]
    · rw [if_neg hlc]
      exact hf l' c'

/-- Importing the full exported threshold table restores every
threshold. -/
theorem applyPolicyEntries_self
    (g : ContentPolicyModule.ContentLevel → ContentPolicyModule.ContentCategory → Nat)
    (lvls : List ContentPolicyModule.ContentLevel)
    (f : ContentPolicyModule.ContentLevel → ContentPolicyModule.ContentCategory → Nat)
    (hf : ∀ l' c', f l' c' = g l' c') :
    (ContentPolicyModule.applyPolicyEntries
      (lvls.map (fun l => (l.value,
        ContentPolicyModule.allCategories.map (fun c => (c.value, g l c))))) f).2 = true
    ∧ ∀ l' c', (ContentPolicyModule.applyPolicyEntries
        (lvls.map (fun l => (l.value,
          ContentPolicyModule.allCategories.map (fun c => (c.value, g l c))))) f).1
          l' c' = g l' c' := by
  induction lvls generalizing f with
  | nil => exact ⟨rfl, hf⟩
  | cons l rest ih =>
    rw [List.map_cons]
    unfold ContentPolicyModule.applyPolicyEntries
    rw [cpm_level_fromValue_value l]
    dsimp only
    have hc := applyCatEntries_self g l ContentPolicyModule.allCategories f hf
    rcases hcp : ContentPolicyModule.applyCatEntries l
        (ContentPolicyModule.allCategories.map (fun c => (c.value, g l c))) f
      with ⟨f1, ok1⟩
    rw [hcp] at hc
    obtain ⟨hok, hpt⟩ := hc
    dsimp only at hok
    subst hok
    rw [hcp]
    dsimp only
    exact ih f1 (fun l' c' => hpt l' c')

/-- C7: importing the exported configuration with a token that verifies
at Unrestricted level returns true and leaves both the per-level
per-category threshold table and the active level exactly as they were
at export time. -/
theorem c7_config_roundtrip (st : ContentPolicyModule.CPMState) (now : Nat)
    (token : String)
    (h : (ContentPolicyModule.verify_authorization st now token
      ContentPolicyModule.ContentLevel.unrestricted).1 = true) :
    (ContentPolicyModule.import_policy_config st now
      (ContentPolicyModule.export_policy_config st now) token).1 = true
    ∧ (ContentPolicyModule.import_policy_config st now
        (ContentPolicyModule.export_policy_config st now) token).2.current_level =
          st.current_level
    ∧ ∀ l c, (ContentPolicyModule.import_policy_config st now
        (ContentPolicyModule.export_policy_config st now) token).2.policies l c =
          st.policies l c := by
  -- Extract the live-session facts from the hypothesis.
  have hfacts : token ≠ "" ∧ ∃ s, st.session_tokens.lookup token = some s ∧
      ¬(s.expiry < now) ∧ 3 ≤ ContentPolicyModule.level_hierarchy s.level := by
    unfold ContentPolicyModule.verify_authorization at h
    by_cases ht : token = ""
    · rw [if_pos ht] at h
      exact absurd h Bool.false_ne_true
    · rw [if_neg ht] at h
      cases hl : st.session_tokens.lookup token with
      | none =>
        rw [hl] at h
        exact absurd h Bool.false_ne_true
      | some s =>
        rw [hl] at h
        dsimp only at h
        by_cases hexp : s.expiry < now
        · rw [if_pos hexp] at h
          exact absurd h Bool.false_ne_true
        · rw [if_neg hexp] at h
          rw [decide_eq_true_eq] at h
          exact ⟨ht, s, rfl, hexp, h⟩
  obtain ⟨hne, s, hl, hexp, hrank⟩ := hfacts
  -- Verification succeeds, without side effects, for every required
  -- level and every state sharing the session table.
  have hverify : ∀ st' : ContentPolicyModule.CPMState,
      st'.session_tokens = st.session_tokens →
      ∀ req, ContentPolicyModule.verify_authorization st' now token req =
        (true, st') := by
    intro st' hs req
    unfold ContentPolicyModule.verify_authorization
    rw [if_neg hne, hs, hl]
    dsimp only
    rw [if_neg hexp]
    rw [decide_eq_true (Nat.le_trans (cpm_rank_le_three req) hrank)]
  -- The threshold-table import restores every threshold, for every
  -- state sharing the session table whose table already equals `st`'s.
  have himp : ∀ st' : ContentPolicyModule.CPMState,
      st'.session_tokens = st.session_tokens →
      st'.policies = st.policies →
      (ContentPolicyModule.importPolicies st' now
        (ContentPolicyModule.export_policy_config st now) token).1 = true
      ∧ (ContentPolicyModule.importPolicies st' now
          (ContentPolicyModule.export_policy_config st now) token).2.current_level =
            st'.current_level
      ∧ ∀ l c, (ContentPolicyModule.importPolicies st' now
          (ContentPolicyModule.export_policy_config st now) token).2.policies l c =
            st.policies l c := by
    intro st' hs hpol
    unfold ContentPolicyModule.importPolicies
    dsimp only [ContentPolicyModule.export_policy_config]
    rw [hverify st' hs ContentPolicyModule.ContentLevel.unrestricted]
    dsimp only
    rw [if_pos rfl]
    have hap := applyPolicyEntries_self st.policies
      ContentPolicyModule.allLevels st'.policies (fun l c => by rw [hpol])
    rcases hcp : ContentPolicyModule.applyPolicyEntries
        (ContentPolicyModule.allLevels.map (fun l => (l.value,
          ContentPolicyModule.allCategories.map
            (fun c => (c.value, st.policies l c))))) st'.policies
      with ⟨tbl, ok⟩
    rw [hcp] at hap
    obtain ⟨hok, hpt⟩ := hap
    dsimp only at hok
    subst hok
    rw [hcp]
    exact ⟨rfl, rfl, fun l c => hpt l c⟩
  -- The level restore keeps level, thresholds and session table.
  have hset : ∀ r, ContentPolicyModule.set_policy_level st now st.current_level
      (some token) r =
      (true, { st with policy_changes := st.policy_changes ++
        [⟨st.current_level, st.current_level, some token, r⟩] }) := by
    intro r
    unfold ContentPolicyModule.set_policy_level
    by_cases hlvl : st.current_level = ContentPolicyModule.ContentLevel.research ∨
        st.current_level = ContentPolicyModule.ContentLevel.unrestricted
    · rw [if_pos hlvl]
      rw [Option.getD_some, hverify st rfl st.current_level]
      dsimp only
      rw [if_neg (by decide)]
    · rw [if_neg hlvl]
  -- Assemble the pipeline.
  unfold ContentPolicyModule.import_policy_config
  rw [hverify st rfl ContentPolicyModule.ContentLevel.research]
  dsimp only
  rw [if_neg (by decide)]
  have hcl : (ContentPolicyModule.export_policy_config st now).current_level =
      some st.current_level.value := rfl
  rw [hcl]
  dsimp only
  rw [cpm_level_fromValue_value st.current_level]
  dsimp only
  rw [hset (some "Config import")]
  dsimp only
  obtain ⟨h1, h2, h3⟩ := himp
    { st with policy_changes := st.policy_changes ++
        [⟨st.current_level, st.current_level, some token,
          some "Config import"⟩] } rfl rfl
  exact ⟨h1, h2, fun l c => h3 l c⟩

/-- Witness for C7 with a concrete engine state and a live Unrestricted
token. -/
theorem c7_config_roundtrip_witness :
    (ContentPolicyModule.import_policy_config ContentPolicyModule.roundTripState 0
      (ContentPolicyModule.export_policy_config ContentPolicyModule.roundTripState 0)
      "tok7").1 = true
    ∧ (ContentPolicyModule.import_policy_config ContentPolicyModule.roundTripState 0
        (ContentPolicyModule.export_policy_config ContentPolicyModule.roundTripState 0)
        "tok7").2.current_level = ContentPolicyModule.ContentLevel.safe
    ∧ (ContentPolicyModule.import_policy_config ContentPolicyModule.roundTripState 0
        (ContentPolicyModule.export_policy_config ContentPolicyModule.roundTripState 0)
        "tok7").2.policies ContentPolicyModule.ContentLevel.research
          ContentPolicyModule.ContentCategory.adult = 40 := by
  have h := c7_config_roundtrip ContentPolicyModule.roundTripState 0 "tok7"
    (by rfl)
  refine ⟨h.1, ?_, ?_⟩
  · rw [h.2.1]
    rfl
  · rw [h.2.2 ContentPolicyModule.ContentLevel.research
      ContentPolicyModule.ContentCategory.adult]
    rfl

/-! ## C5 — global rate-limit recording in `search_web_safely` -/

/-- C5 counterexample: a search that fetches one page appends TWO global
rate-limit timestamps (one by the successful fetch, one by the search),
while the claim demands exactly one. -/
theorem c5_counterexample :
    (FixedWebAccess.historyOf
      (FixedWebAccess.search_web_safely [FixedWebAccess.wikiResult]
        FixedWebAccess.catFetchO FixedWebAccess.emptyWebState 0 "cats"
        none).2 "global").length = 2
    ∧ (2 : Nat) ≠ 0 + 1 := by
  decide

/-- Updating a key makes its lookup return the new value. -/
theorem lookup_updateAssoc_self {α : Type} (l : List (String × α)) (k : String)
    (v : α) : (FixedWebAccess.updateAssoc l k v).lookup k = some v := by
  induction l with
  | nil => simp [FixedWebAccess.updateAssoc, List.lookup]
  | cons hd tl ih =>
    unfold FixedWebAccess.updateAssoc
    by_cases h : hd.1 = k
    · rw [if_pos h]
      simp [List.lookup]
    · rw [if_neg h]
      rw [List.lookup_cons]
      have : (k == hd.1) = false := by
        simp only [beq_eq_false_iff_ne]
        exact fun hk => h hk.symm
      rw [this]
      exact ih

/-- Updating one key leaves every other key's lookup unchanged. -/
theorem lookup_updateAssoc_ne {α : Type} (l : List (String × α)) (k : String)
    (v : α) (k2 : String) (h : k2 ≠ k) :
    (FixedWebAccess.updateAssoc l k v).lookup k2 = l.lookup k2 := by
  induction l with
  | nil =>
    simp [FixedWebAccess.updateAssoc, List.lookup,
      beq_eq_false_iff_ne.mpr h]
  | cons hd tl ih =>
    unfold FixedWebAccess.updateAssoc
    by_cases hh : hd.1 = k
    · rw [if_pos hh]
      rw [List.lookup_cons, List.lookup_cons]
      have h2 : (k2 == k) = false := beq_eq_false_iff_ne.mpr h
      have h3 : (k2 == hd.1) = false := by
        rw [hh]
        exact h2
      rw [h2, h3]
    · rw [if_neg hh]
      rw [List.lookup_cons, List.lookup_cons]
      cases hk2 : k2 == hd.1 with
      | true => rfl
      | false => exact ih

/-- Lookup commutes with a value-wise map of an association list. -/
theorem lookup_map_snd {α β : Type} (l : List (String × α)) (f : α → β)
    (k : String) :
    (l.map (fun p => (p.1, f p.2))).lookup k = (l.lookup k).map f := by
  induction l with
  | nil => rfl
  | cons hd tl ih =>
    rw [List.map_cons, List.lookup_cons, List.lookup_cons]
    cases k == hd.1 with
    | true => rfl
    | false => exact ih

/-- The history of a key after pruning is the pruned history. -/
theorem historyOf_cleanup (st : FixedWebAccess.WebState) (now : Int)
    (key : String) :
    FixedWebAccess.historyOf (FixedWebAccess.cleanup_request_history st now) key =
      (FixedWebAccess.historyOf st key).filter (fun t => now - t < 3600) := by
  unfold FixedWebAccess.historyOf FixedWebAccess.cleanup_request_history
  rw [lookup_map_snd]
  cases st.request_history.lookup key with
  | none => rfl
  | some l => rfl

/-- `record_request` for a non-global key appends exactly one timestamp
to a fresh global window. -/
theorem record_request_global (st : FixedWebAccess.WebState) (now : Int)
    (dom : Option String) (hdom : dom ≠ some "global")
    (hfresh : ∀ t ∈ FixedWebAccess.historyOf st "global", now - t < 3600) :
    FixedWebAccess.historyOf (FixedWebAccess.record_request st now dom)
      "global" = FixedWebAccess.historyOf st "global" ++ [now] := by
  have hmem : ∀ t ∈ FixedWebAccess.historyOf st "global" ++ [now],
      now - t < 3600 := by
    intro t ht
    rcases List.mem_append.mp ht with hin | hin
    · exact hfresh t hin
    · rw [List.mem_singleton] at hin
      subst hin
      omega
  unfold FixedWebAccess.record_request
  rw [historyOf_cleanup]
  cases dom with
  | none =>
    dsimp only
    unfold FixedWebAccess.historyOf
    rw [lookup_updateAssoc_self]
    rw [List.filter_eq_self.mpr ?_]
    · rfl
    · intro a ha
      exact decide_eq_true (hmem a ha)
  | some d =>
    have hd : "global" ≠ d := by
      intro habs
      exact hdom (by rw [habs])
    dsimp only
    unfold FixedWebAccess.historyOf
    rw [lookup_updateAssoc_ne _ _ _ _ hd, lookup_updateAssoc_self]
    rw [List.filter_eq_self.mpr ?_]
    · rfl
    · intro a ha
      exact decide_eq_true (hmem a ha)

/-- Audit logging does not touch the rate-limit history. -/
theorem historyOf_log_web_request (st : FixedWebAccess.WebState)
    (q u : String) (s : Bool) (cl : Nat) (rt : Int) (ts : Nat)
    (fr : Option String) (ctx : Option String) (key : String) :
    FixedWebAccess.historyOf
      (FixedWebAccess.log_web_request st q u s cl rt ts fr ctx) key =
      FixedWebAccess.historyOf st key := rfl

/-- A trusted host never collides with the reserved `"global"` rate
key (no blocked or trusted entry matches inside `"global"`). -/
theorem trusted_domain_ne_global (url : String)
    (tr : (FixedWebAccess.is_trusted_domain url).1 = true) :
    FixedWebAccess.domainOf url ≠ "global" := by
  intro habs
  unfold FixedWebAccess.is_trusted_domain at tr
  rw [habs] at tr
  exact absurd tr (by decide)

/-- The state effect of `fetch_safe_content`: unchanged on failure, one
`record_request` on the fetched domain on success. -/
theorem fetch_snd (fetchO : String → Option String)
    (st : FixedWebAccess.WebState) (now : Int) (url : String) :
    (FixedWebAccess.fetch_safe_content fetchO st now url).2 =
      (match (FixedWebAccess.fetch_safe_content fetchO st now url).1 with
       | .success _ _ _ _ =>
         FixedWebAccess.record_request st now
           (some (FixedWebAccess.domainOf url))
       | .failure _ => st) := by
  unfold FixedWebAccess.fetch_safe_content
  split
  · rfl
  · dsimp only
    split
    · rfl
    · split
      · rfl
      · rename_i text heq
        rcases hfl : FixedWebAccess.apply_content_filters text with ⟨ok, reason⟩
        dsimp only
        split
        · rfl
        · rfl


/-- The per-result loop grows the global window by exactly one timestamp
per successfully fetched (returned) result, keeping it fresh. -/
theorem processResults_global (fetchO : String → Option String) (now : Int)
    (query : String) (ctx : Option String) :
    ∀ (rs : List FixedWebAccess.RawResult) (st : FixedWebAccess.WebState),
      (∀ t ∈ FixedWebAccess.historyOf st "global", now - t < 3600) →
      (FixedWebAccess.historyOf
        (FixedWebAccess.processResults fetchO now query ctx rs st).2
        "global").length =
        (FixedWebAccess.historyOf st "global").length +
          (FixedWebAccess.processResults fetchO now query ctx rs st).1.length
      ∧ (∀ t ∈ FixedWebAccess.historyOf
          (FixedWebAccess.processResults fetchO now query ctx rs st).2 "global",
          now - t < 3600) := by
  intro rs
  induction rs with
  | nil =>
    intro st h
    exact ⟨by simp [FixedWebAccess.processResults],
      by simpa [FixedWebAccess.processResults] using h⟩
  | cons r rest ih =>
    intro st hfresh
    unfold FixedWebAccess.processResults
    rcases htr : FixedWebAccess.is_trusted_domain r.url with ⟨tr, score, reason⟩
    dsimp only
    by_cases hc : tr = true ∧ 50 < score
    · rw [if_pos hc]
      have hsnd := fetch_snd fetchO st now r.url
      rcases hfr : FixedWebAccess.fetch_safe_content fetchO st now r.url
        with ⟨fres, stf⟩
      rw [hfr] at hsnd
      dsimp only at hsnd
      cases fres with
      | failure e =>
        dsimp only at hsnd
        subst hsnd
        exact ih _ hfresh
      | success c f l u =>
        dsimp only at hsnd
        subst hsnd
        have hnotg : FixedWebAccess.domainOf r.url ≠ "global" :=
          trusted_domain_ne_global r.url (by rw [htr]; exact hc.1)
        have hrec := record_request_global st now
          (some (FixedWebAccess.domainOf r.url))
          (fun habs => hnotg (Option.some.inj habs)) hfresh
        have hfresh2 : ∀ t ∈ FixedWebAccess.historyOf
            (FixedWebAccess.record_request st now
              (some (FixedWebAccess.domainOf r.url))) "global",
            now - t < 3600 := by
          intro t ht
          rw [hrec] at ht
          rcases List.mem_append.mp ht with h1 | h1
          · exact hfresh t h1
          · rw [List.mem_singleton] at h1
            subst h1
            omega
        obtain ⟨ih1, ih2⟩ := ih (FixedWebAccess.log_web_request
          (FixedWebAccess.record_request st now
            (some (FixedWebAccess.domainOf r.url)))
          query r.url true c.length f score none ctx) hfresh2
        rcases hps : FixedWebAccess.processResults fetchO now query ctx rest
            (FixedWebAccess.log_web_request
              (FixedWebAccess.record_request st now
                (some (FixedWebAccess.domainOf r.url)))
              query r.url true c.length f score none ctx)
          with ⟨ps, st3⟩
        rw [hps] at ih1 ih2
        dsimp only at ih1 ih2
        dsimp only
        rw [hps]
        dsimp only
        refine ⟨?_, ih2⟩
        rw [ih1]
        have h2 : (FixedWebAccess.historyOf
            (FixedWebAccess.record_request st now
              (some (FixedWebAccess.domainOf r.url))) "global").length =
            (FixedWebAccess.historyOf st "global").length + 1 := by
          rw [hrec, List.length_append, List.length_singleton]
        rw [show (FixedWebAccess.historyOf (FixedWebAccess.log_web_request
            (FixedWebAccess.record_request st now
              (some (FixedWebAccess.domainOf r.url)))
            query r.url true c.length f score none ctx) "global") =
            (FixedWebAccess.historyOf (FixedWebAccess.record_request st now
              (some (FixedWebAccess.domainOf r.url))) "global") from rfl]
        rw [h2, List.length_cons]
        omega
    · rw [if_neg hc]
      exact ih (FixedWebAccess.log_web_request st query r.url false 0 0 score
        (some ("Domain not trusted: " ++ reason)) ctx) hfresh

/-- C5 (amended): a search that passes the safety, rate-limit and cache
stages and has raw results succeeds and appends `k + 1` timestamps to
the (fresh) global rate-limit window, where `k` is the number of
successfully fetched result pages — one per fetch (via the
`record_request(domain)` inside `fetch_safe_content`, which always also
records globally) plus a single one for the whole search. -/
theorem c5_global_rate_records (rawResults : List FixedWebAccess.RawResult)
    (fetchO : String → Option String) (st : FixedWebAccess.WebState)
    (now : Int) (query : String) (ctx : Option String)
    (hsafe : (FixedWebAccess.is_safe_query query).1 = true)
    (hrl : FixedWebAccess.is_rate_limited st now none = false)
    (hcache : st.cache.lookup (FixedWebAccess.generate_cache_key query) = none)
    (hne : rawResults ≠ [])
    (hfresh : ∀ t ∈ FixedWebAccess.historyOf st "global", now - t < 3600) :
    ∃ d, (FixedWebAccess.search_web_safely rawResults fetchO st now query
        ctx).1 = FixedWebAccess.SearchOutcome.ok d
      ∧ (FixedWebAccess.historyOf
          (FixedWebAccess.search_web_safely rawResults fetchO st now query
            ctx).2 "global").length =
        (FixedWebAccess.historyOf st "global").length + d.results.length + 1 := by
  unfold FixedWebAccess.search_web_safely
  rcases hsq : FixedWebAccess.is_safe_query query with ⟨b, sreason⟩
  rw [hsq] at hsafe
  dsimp only at hsafe
  subst hsafe
  dsimp only
  rw [if_neg (by decide)]
  rw [hrl]
  rw [if_neg Bool.false_ne_true]
  rw [hcache]
  dsimp only
  unfold FixedWebAccess.searchGo
  rw [if_neg hne]
  obtain ⟨hlen, hfr2⟩ :=
    processResults_global fetchO now query ctx rawResults st hfresh
  rcases hpr : FixedWebAccess.processResults fetchO now query ctx rawResults st
    with ⟨processed, st1⟩
  rw [hpr] at hlen hfr2
  dsimp only at hlen hfr2
  dsimp only
  refine ⟨⟨query, processed, processed.length, 0⟩, rfl, ?_⟩
  have hrec := record_request_global st1 now none (by simp) hfr2
  show (FixedWebAccess.historyOf
    (FixedWebAccess.record_request st1 now none) "global").length = _
  rw [hrec, List.length_append, List.length_singleton, hlen]

/-- Witness for C5: the concrete one-page search appends two global
timestamps — one for the fetched page, one for the search. -/
theorem c5_global_rate_records_witness :
    (FixedWebAccess.historyOf
      (FixedWebAccess.search_web_safely [FixedWebAccess.wikiResult]
        FixedWebAccess.catFetchO FixedWebAccess.emptyWebState 0 "cats"
        none).2 "global").length =
      (FixedWebAccess.historyOf FixedWebAccess.emptyWebState "global").length +
        (match (FixedWebAccess.search_web_safely [FixedWebAccess.wikiResult]
            FixedWebAccess.catFetchO FixedWebAccess.emptyWebState 0 "cats"
            none).1 with
         | FixedWebAccess.SearchOutcome.ok d => d.results.length
         | FixedWebAccess.SearchOutcome.fail _ _ => 0) + 1 := by
  obtain ⟨d, hok, hlen⟩ := c5_global_rate_records [FixedWebAccess.wikiResult]
    FixedWebAccess.catFetchO FixedWebAccess.emptyWebState 0 "cats" none
    (by decide) (by decide) (by decide) (by decide) (by decide)
  rw [hok, hlen]
